import Mathlib

/-
Verification of the mattermost-log-scrubber scrubbing engine.

This file gives a shallow embedding, in Lean 4, of the scrubbing engine of
the mattermost-log-scrubber repository:

  * src/constants/constants.go   (scrubbing levels and UID constants)
  * src/scrubber/levels.go       (the pure Level Policy functions)
  * src/scrubber/scrubber.go     (the Scrubber state, the four regex-driven
                                  masking passes, the identity mapper
                                  createUserMapping / getUserMappedName /
                                  getUserMappedEmail, detectAndMapUser, and
                                  the per-line driver processLogLine)
  * the recursive link-detection walk findUserMappingsRecursive present in
    the later scrubber versions kept in the repository (src/unnamed/part_003),
    which iterates over a Go map.

Strings are modelled as lists of characters (Go strings of the inputs in
scope are ASCII, one byte per rune).  Go maps are modelled as association
lists where an insert prepends and a lookup takes the first hit, so a later
insert of the same key shadows the earlier one, exactly like a Go map write.
The Go `*UserMapping` pointers are modelled with an arena: the session state
carries a list of UserMapping records, and the map carries indices into it,
so that mutating a record through one key is visible through every key that
points at the same record, as with Go pointers.

The regular expressions of the Value Classifier are fixed patterns:

  emailRegex    [a-zA-Z0-9._%+-]+@[a-zA-Z0-9.-]+\.[a-zA-Z]{2,}
  ipRegex       \b(?:[0-9]{1,3}\.){3}[0-9]{1,3}\b
  usernameRegex "(?:user|username|name)"\s*:\s*"([^"]+)"
  uidRegex      \b[a-f0-9]{20,}\b

Each is embedded as a hand-rolled matcher with Go regexp semantics
(leftmost match, first-preference alternation, greedy repetition), together
with a scanner that mirrors Regexp.ReplaceAllStringFunc: scan left to
right, replace each non-overlapping match through the callback, resume
after the match.  The scanners are fuel-indexed with fuel equal to the text
length, which every recursion step strictly decreases below.
-/

namespace MMScrub

/-- Strings are lists of characters. -/
abbrev Str := List Char

/-- Coerce a Lean string literal to the character-list representation. -/
def strL (s : String) : Str := s.data

/-! ## Character classes of the classifier regexes -/

/-- Decimal digit, the regex class [0-9]. -/
def isDigitC (c : Char) : Bool := c.isDigit

/-- ASCII letter, the regex class [a-zA-Z]. -/
def isAlphaGo (c : Char) : Bool :=
  decide (97 ≤ c.toNat ∧ c.toNat ≤ 122) || decide (65 ≤ c.toNat ∧ c.toNat ≤ 90)

/-- Word character for the regex boundary \b: [A-Za-z0-9_]. -/
def isWordC (c : Char) : Bool := isAlphaGo c || isDigitC c || c == '_'

/-- Character class of the email local part: [a-zA-Z0-9._%+-]. -/
def isLocalC (c : Char) : Bool :=
  isAlphaGo c || isDigitC c || c == '.' || c == '_' || c == '%' || c == '+' || c == '-'

/-- Character class of the email domain part: [a-zA-Z0-9.-]. -/
def isDomC (c : Char) : Bool := isAlphaGo c || isDigitC c || c == '.' || c == '-'

/-- Lowercase hexadecimal digit, the regex class [a-f0-9] of uidRegex. -/
def isHexLower (c : Char) : Bool := decide (97 ≤ c.toNat ∧ c.toNat ≤ 102) || isDigitC c

/-- Whitespace for the regex class \s of RE2: [\t\n\f\r ]. -/
def isSpaceRe (c : Char) : Bool :=
  c == ' ' || c == '\t' || c == '\n' || c == '\x0c' || c == '\r'

/-- Whitespace in the sense of strings.TrimSpace (ASCII fragment):
blank-line detection in ProcessFile uses TrimSpace(line) == "". -/
def isGoSpace (c : Char) : Bool :=
  c == ' ' || c == '\t' || c == '\n' || c == '\x0b' || c == '\x0c' || c == '\r'

/-! ## Go string helpers -/

/-- Helper for the split functions: prepend a character to the first piece. -/
def consHead (c : Char) : List Str → List Str
  | [] => [[c]]
  | h :: t => (c :: h) :: t

/-- strings.Split with a one-character separator. -/
def splitOnChar (sep : Char) : Str → List Str
  | [] => [[]]
  | c :: cs => if c == sep then [] :: splitOnChar sep cs else consHead c (splitOnChar sep cs)

/-- strings.Split with the three-character separator quote-colon-quote,
the separator used by the scrubUsernames callback. -/
def splitQCQ : Str → List Str
  | [] => [[]]
  | [c] => [[c]]
  | [c1, c2] => [[c1, c2]]
  | c1 :: c2 :: c3 :: rest =>
    if c1 == '"' && c2 == ':' && c3 == '"' then [] :: splitQCQ rest
    else consHead c1 (splitQCQ (c2 :: c3 :: rest))

/-- strings.TrimSuffix with the one-character suffix quote. -/
def trimSuffixQuote (s : Str) : Str :=
  match s.getLast? with
  | some c => if c == '"' then s.dropLast else s
  | none => s

/-- Decimal rendering of a natural number, modelling fmt.Sprintf of an int
(the ints in scope are the non-negative mapping counters).  Fuel-indexed so
that it reduces in the kernel; the fuel n + 1 always suffices. -/
def natToStrAux : Nat → Nat → Str
  | 0, _ => []
  | f + 1, n =>
    if n < 10 then [Char.ofNat (48 + n)]
    else natToStrAux f (n / 10) ++ [Char.ofNat (48 + n % 10)]

/-- Decimal rendering of a natural number. -/
def natToStr (n : Nat) : Str := natToStrAux (n + 1) n

/-! ## Constants (src/constants/constants.go) -/

/-- ScrubLevelLow. -/
def ScrubLevelLow : Nat := 1

/-- ScrubLevelMedium. -/
def ScrubLevelMedium : Nat := 2

/-- ScrubLevelHigh. -/
def ScrubLevelHigh : Nat := 3

/-- MinUIDLength: minimum UID length for scrubbing. -/
def MinUIDLength : Nat := 20

/-- UIDTargetLength: target UID length after scrubbing. -/
def UIDTargetLength : Nat := 26

/-- UIDKeepChars: characters kept at the end of a UID. -/
def UIDKeepChars : Nat := 8

/-! ## Level Policy (src/scrubber/levels.go)

Pure functions from (level, original value) to the masked value. -/

/-- scrubEmailByLevel: mask an email according to the scrubbing level
(the non-mapping path of scrubEmails). -/
def scrubEmailByLevel (level : Nat) (email : Str) : Str :=
  let parts := splitOnChar '@' email
  if parts.length ≠ 2 then email
  else
    let localPart := parts.getD 0 []
    let domain := parts.getD 1 []
    if level = ScrubLevelLow then
      if localPart.length ≤ 3 then
        List.replicate localPart.length '*' ++ '@' :: domain
      else
        (List.replicate (localPart.length - 3) '*' ++
          localPart.drop (localPart.length - 3)) ++ '@' :: domain
    else if level = ScrubLevelMedium then
      List.replicate localPart.length '*' ++ '@' :: domain
    else if level = ScrubLevelHigh then
      List.replicate localPart.length '*' ++ '@' :: List.replicate domain.length '*'
    else email

/-- scrubUsernameByLevel: mask a username according to the scrubbing level
(the non-mapping path of scrubUsernames). -/
def scrubUsernameByLevel (level : Nat) (username : Str) : Str :=
  if level = ScrubLevelLow then
    if username.length ≤ 3 then List.replicate username.length '*'
    else List.replicate (username.length - 3) '*' ++ username.drop (username.length - 3)
  else if level = ScrubLevelMedium ∨ level = ScrubLevelHigh then
    List.replicate username.length '*'
  else username

/-- scrubIPByLevel: mask an IPv4 address according to the scrubbing level.
Level 1 falls into the default case and returns the address unchanged. -/
def scrubIPByLevel (level : Nat) (ip : Str) : Str :=
  let parts := splitOnChar '.' ip
  if parts.length ≠ 4 then ip
  else if level = ScrubLevelMedium then
    strL ("***.***.***.") ++ parts.getD 3 []
  else if level = ScrubLevelHigh then
    strL ("***.***.***.***")
  else ip

/-- scrubUIDByLevel: mask a UID according to the scrubbing level.  Only
level 3 masks; the masked length is computed with Go int arithmetic, so the
branch for a negative maskedLength is kept even though 26 - 8 is positive. -/
def scrubUIDByLevel (level : Nat) (uid : Str) : Str :=
  if level ≠ ScrubLevelHigh then uid
  else if uid.length < UIDKeepChars then List.replicate uid.length '*'
  else
    let lastChars := uid.drop (uid.length - UIDKeepChars)
    let maskedLength : Int := (UIDTargetLength : Int) - (UIDKeepChars : Int)
    let maskedLength : Int :=
      if maskedLength < 0 then (uid.length : Int) - (UIDKeepChars : Int) else maskedLength
    List.replicate maskedLength.toNat '*' ++ lastChars

/-! ## Matchers (the Value Classifier regexes)

Each matcher decides whether a match of its pattern starts at the head of
the text, returning the matched text and the remainder.  The matchers
implement Go regexp (leftmost-first) semantics for their fixed pattern. -/

/-- Helper for emailRegex: whether domain-run position j can carry the
final dot, i.e. the run has a dot at j followed by at least two ASCII
letters.  Backtracking of the greedy [a-zA-Z0-9.-]+ prefers the largest
such j. -/
def validDot (r : Str) (j : Nat) : Bool :=
  (r.getD j ' ' == '.') && decide (2 ≤ ((r.drop (j + 1)).takeWhile isAlphaGo).length)

/-- Largest index j with 1 ≤ j ≤ start such that validDot holds at j. -/
def findLastDotAux (r : Str) : Nat → Option Nat
  | 0 => none
  | j + 1 => if validDot r (j + 1) then some (j + 1) else findLastDotAux r j

/-- Matcher for emailRegex = [a-zA-Z0-9._%+-]+@[a-zA-Z0-9.-]+\.[a-zA-Z]{2,}
at the head of the text: greedy local part, at sign, then the greedy domain
run backtracks to the last dot that is followed by at least two letters,
and the trailing letter class is greedy. -/
def emailMatchAt (cs : Str) : Option (Str × Str) :=
  let l := cs.takeWhile isLocalC
  if l.length = 0 then none
  else
    match cs.drop l.length with
    | '@' :: cs2 =>
      let r := cs2.takeWhile isDomC
      match findLastDotAux r (r.length - 1) with
      | none => none
      | some j =>
        let tld := (r.drop (j + 1)).takeWhile isAlphaGo
        let m := l ++ '@' :: (r.take j ++ '.' :: tld)
        some (m, cs.drop m.length)
    | _ => none

/-- Matcher for one octet group [0-9]{1,3} followed by the given continuation
requirement: the greedy digit run must have length 1 to 3, since a longer
run cannot be followed by the required dot after any backtracking. -/
def ipGroup (cs : Str) : Option (Str × Str) :=
  let d := cs.takeWhile isDigitC
  if d.length = 0 || 3 < d.length then none else some (d, cs.drop d.length)

/-- Matcher for ipRegex = \b(?:[0-9]{1,3}\.){3}[0-9]{1,3}\b at the head of
the text.  The leading \b is checked by the scanner (previous character not
a word character); the trailing \b requires the character after the fourth
group, if any, to be a non-word character. -/
def ipMatchAt (cs : Str) : Option (Str × Str) :=
  match ipGroup cs with
  | none => none
  | some (d1, r1) =>
    match r1 with
    | '.' :: r1b =>
      match ipGroup r1b with
      | none => none
      | some (d2, r2) =>
        match r2 with
        | '.' :: r2b =>
          match ipGroup r2b with
          | none => none
          | some (d3, r3) =>
            match r3 with
            | '.' :: r3b =>
              match ipGroup r3b with
              | none => none
              | some (d4, rest) =>
                let m := d1 ++ '.' :: d2 ++ '.' :: d3 ++ '.' :: d4
                match rest with
                | [] => some (m, [])
                | c :: _ => if isWordC c then none else some (m, rest)
            | _ => none
        | _ => none
    | _ => none

/-- Matcher for the tail of usernameRegex after the quoted key:
\s* : \s* " [^"]+ ".  Returns the matched tail text and the remainder. -/
def usernameTailMatch (cs2 : Str) : Option (Str × Str) :=
  let ws1 := cs2.takeWhile isSpaceRe
  match cs2.drop ws1.length with
  | ':' :: cs3 =>
    let ws2 := cs3.takeWhile isSpaceRe
    match cs3.drop ws2.length with
    | '"' :: cs4 =>
      let v := cs4.takeWhile (fun c => !(c == '"'))
      if v.length = 0 then none
      else
        match cs4.drop v.length with
        | '"' :: rest => some (ws1 ++ ':' :: ws2 ++ '"' :: v ++ ['"'], rest)
        | _ => none
    | _ => none
  | _ => none

/-- Matcher for one alternative of the key alternation (?:user|username|name):
the key text, its closing quote, then the tail. -/
def usernameKeyMatch (k : Str) (cs1 : Str) : Option (Str × Str) :=
  if k.isPrefixOf cs1 then
    match cs1.drop k.length with
    | '"' :: cs2 =>
      match usernameTailMatch cs2 with
      | some (t, rest) => some ('"' :: k ++ '"' :: t, rest)
      | none => none
    | _ => none
  else none

/-- Matcher for usernameRegex = "(?:user|username|name)"\s*:\s*"([^"]+)" at
the head of the text; the alternation prefers user, then username, then
name, with backtracking into the next alternative on a later failure. -/
def usernameMatchAt (cs : Str) : Option (Str × Str) :=
  match cs with
  | '"' :: cs1 =>
    match usernameKeyMatch (strL ("user")) cs1 with
    | some r => some r
    | none =>
      match usernameKeyMatch (strL ("username")) cs1 with
      | some r => some r
      | none => usernameKeyMatch (strL ("name")) cs1
  | _ => none

/-- Matcher for uidRegex = \b[a-f0-9]{20,}\b at the head of the text: the
greedy run of lowercase hex characters must reach length 20 and the next
character, if any, must be a non-word character (otherwise every shorter
greedy attempt ends on a word character as well and the position fails). -/
def uidMatchAt (cs : Str) : Option (Str × Str) :=
  let run := cs.takeWhile isHexLower
  if run.length < MinUIDLength then none
  else
    match cs.drop run.length with
    | [] => some (run, [])
    | c :: rest => if isWordC c then none else some (run, c :: rest)

/-! ## Session state (the Scrubber struct of src/scrubber/scrubber.go) -/

/-- One identity record; the Go struct UserMapping.  Username or Email is
empty for a standalone record whose complementary field is not yet known. -/
structure UserMapping where
  username : Str
  email : Str
  mappedID : Nat
deriving DecidableEq, Repr

/-- Association-list lookup, first hit wins.  Inserts prepend, so this has
Go map semantics: a later insert of a key shadows the earlier binding. -/
def lookupA {α : Type} (k : Str) : List (Str × α) → Option α
  | [] => none
  | (k2, v) :: t => if k = k2 then some v else lookupA k t

/-- The Scrubber session state.  The Go map userMappings from key to
*UserMapping is split into an arena (records) plus an index map, so that
several keys can share one mutable record as Go pointers do. -/
structure Scrubber where
  level : Nat
  useMapping : Bool
  emailMap : List (Str × Str)
  userMap : List (Str × Str)
  ipMap : List (Str × Str)
  uidMap : List (Str × Str)
  records : List UserMapping
  userMappings : List (Str × Nat)
  userCounter : Nat
deriving DecidableEq, Repr

/-- NewScrubber: all maps empty, counter zero (the verbose flag only
controls diagnostic printing and is not part of the functional state). -/
def initScrubber (level : Nat) (useMapping : Bool) : Scrubber :=
  ⟨level, useMapping, [], [], [], [], [], [], 0⟩

/-- Index of the identity record a key is bound to, if any. -/
def lookupIdx (st : Scrubber) (k : Str) : Option Nat := lookupA k st.userMappings

/-- Read a record from the arena. -/
def getRec (st : Scrubber) (i : Nat) : UserMapping := st.records.getD i ⟨[], [], 0⟩

/-- The mappedID a key resolves to, if the key is bound. -/
def lookupID (st : Scrubber) (k : Str) : Option Nat :=
  (lookupIdx st k).map (fun i => (getRec st i).mappedID)

/-- Rendered replacement of a mapped username: fmt.Sprintf of user%d. -/
def renderUser (n : Nat) : Str := strL ("user") ++ natToStr n

/-- Rendered replacement of a mapped email: fmt.Sprintf of user%d@domain.com. -/
def renderEmailRep (n : Nat) : Str := strL ("user") ++ natToStr n ++ strL ("@domain.com")

/-! ## Identity Mapper (scrubber.go lines 293-368) -/

/-- createUserMapping: link or create the identity for a username/email
pair found on one JSON line.  If the username key is already bound and its
record lacks an email, attach the email and bind the email key to the same
record; symmetrically for a bound email key; otherwise allocate the next
ordinal and bind both keys to a fresh record. -/
def createUserMapping (st : Scrubber) (username email : Str) : Scrubber :=
  match lookupIdx st username with
  | some i =>
    let m := getRec st i
    if m.email = [] then
      { st with records := st.records.set i { m with email := email },
                userMappings := (email, i) :: st.userMappings }
    else st
  | none =>
    match lookupIdx st email with
    | some i =>
      let m := getRec st i
      if m.username = [] then
        { st with records := st.records.set i { m with username := username },
                  userMappings := (username, i) :: st.userMappings }
      else st
    | none =>
      let counter := st.userCounter + 1
      { st with userCounter := counter,
                records := st.records ++ [⟨username, email, counter⟩],
                userMappings :=
                  (username, st.records.length) :: (email, st.records.length) :: st.userMappings }

/-- getUserMappedName: render the mapped username, creating a standalone
identity with the next ordinal when the key is unbound. -/
def getUserMappedName (st : Scrubber) (username : Str) : Str × Scrubber :=
  match lookupIdx st username with
  | some i => (renderUser (getRec st i).mappedID, st)
  | none =>
    let counter := st.userCounter + 1
    (renderUser counter,
     { st with userCounter := counter,
               records := st.records ++ [⟨username, [], counter⟩],
               userMappings := (username, st.records.length) :: st.userMappings })

/-- getUserMappedEmail: render the mapped email, creating a standalone
identity with the next ordinal when the key is unbound. -/
def getUserMappedEmail (st : Scrubber) (email : Str) : Str × Scrubber :=
  match lookupIdx st email with
  | some i => (renderEmailRep (getRec st i).mappedID, st)
  | none =>
    let counter := st.userCounter + 1
    (renderEmailRep counter,
     { st with userCounter := counter,
               records := st.records ++ [⟨[], email, counter⟩],
               userMappings := (email, st.records.length) :: st.userMappings })

/-! ## Replacement callbacks (the ReplaceAllStringFunc closures) -/

/-- Body of the scrubEmails callback: consult the emailMap cache, otherwise
derive the replacement (identity mapping or level policy) and cache it. -/
def resolveEmailValue (st : Scrubber) (email : Str) : Str × Scrubber :=
  match lookupA email st.emailMap with
  | some r => (r, st)
  | none =>
    let p := if st.useMapping then getUserMappedEmail st email
             else (scrubEmailByLevel st.level email, st)
    (p.1, { p.2 with emailMap := (email, p.1) :: p.2.emailMap })

/-- Value part of the scrubUsernames callback: consult the userMap cache,
otherwise derive the replacement and cache it. -/
def resolveUsernameValue (st : Scrubber) (username : Str) : Str × Scrubber :=
  match lookupA username st.userMap with
  | some r => (r, st)
  | none =>
    let p := if st.useMapping then getUserMappedName st username
             else (scrubUsernameByLevel st.level username, st)
    (p.1, { p.2 with userMap := (username, p.1) :: p.2.userMap })

/-- Body of the scrubUsernames callback: split the match on the literal
quote-colon-quote; if that does not give exactly two parts, return the
match unchanged, otherwise rewrite the quoted value through the cache and
the identity mapper. -/
def usernameCallback (st : Scrubber) (m : Str) : Str × Scrubber :=
  let parts := splitQCQ m
  if parts.length ≠ 2 then (m, st)
  else
    let key := parts.getD 0 [] ++ strL ("\":\"")
    let username := trimSuffixQuote (parts.getD 1 [])
    let p := resolveUsernameValue st username
    (key ++ p.1 ++ ['"'], p.2)

/-- Body of the scrubIPAddresses callback: consult the ipMap cache,
otherwise apply the level policy and cache it. -/
def ipCallback (st : Scrubber) (ip : Str) : Str × Scrubber :=
  match lookupA ip st.ipMap with
  | some r => (r, st)
  | none =>
    let r := scrubIPByLevel st.level ip
    (r, { st with ipMap := (ip, r) :: st.ipMap })

/-- Body of the scrubUIDs callback: matches shorter than MinUIDLength are
returned unchanged (a defensive re-check in the source), otherwise consult
the uidMap cache or apply the level policy and cache it. -/
def uidCallback (st : Scrubber) (uid : Str) : Str × Scrubber :=
  if uid.length < MinUIDLength then (uid, st)
  else
    match lookupA uid st.uidMap with
    | some r => (r, st)
    | none =>
      let r := scrubUIDByLevel st.level uid
      (r, { st with uidMap := (uid, r) :: st.uidMap })

/-! ## Scanners (Regexp.ReplaceAllStringFunc) -/

/-- Scanner of the email pass: at each position try emailMatchAt, replace a
match through the callback and resume after it, otherwise advance one
character.  Fuel equal to the text length suffices since every step
consumes at least one character. -/
def scrubEmailsAux : Nat → Scrubber → Str → Str × Scrubber
  | 0, st, cs => (cs, st)
  | _ + 1, st, [] => ([], st)
  | f + 1, st, c :: cs =>
    match emailMatchAt (c :: cs) with
    | some (m, rest) =>
      let p := resolveEmailValue st m
      let q := scrubEmailsAux f p.2 rest
      (p.1 ++ q.1, q.2)
    | none =>
      let q := scrubEmailsAux f st cs
      (c :: q.1, q.2)

/-- scrubEmails: the email masking pass over one line of text. -/
def scrubEmails (st : Scrubber) (cs : Str) : Str × Scrubber := scrubEmailsAux cs.length st cs

/-- Scanner of the username pass. -/
def scrubUsernamesAux : Nat → Scrubber → Str → Str × Scrubber
  | 0, st, cs => (cs, st)
  | _ + 1, st, [] => ([], st)
  | f + 1, st, c :: cs =>
    match usernameMatchAt (c :: cs) with
    | some (m, rest) =>
      let p := usernameCallback st m
      let q := scrubUsernamesAux f p.2 rest
      (p.1 ++ q.1, q.2)
    | none =>
      let q := scrubUsernamesAux f st cs
      (c :: q.1, q.2)

/-- scrubUsernames: the username masking pass over one line of text. -/
def scrubUsernames (st : Scrubber) (cs : Str) : Str × Scrubber :=
  scrubUsernamesAux cs.length st cs

/-- Scanner of the IP pass; the flag records whether the previous character
of the original text was a word character, for the leading \b.  After a
match the flag is true since a match ends with a digit. -/
def scrubIPsAux : Nat → Bool → Scrubber → Str → Str × Scrubber
  | 0, _, st, cs => (cs, st)
  | _ + 1, _, st, [] => ([], st)
  | f + 1, prevW, st, c :: cs =>
    if prevW then
      let q := scrubIPsAux f (isWordC c) st cs
      (c :: q.1, q.2)
    else
      match ipMatchAt (c :: cs) with
      | some (m, rest) =>
        let p := ipCallback st m
        let q := scrubIPsAux f true p.2 rest
        (p.1 ++ q.1, q.2)
      | none =>
        let q := scrubIPsAux f (isWordC c) st cs
        (c :: q.1, q.2)

/-- scrubIPAddresses: the IP masking pass over one line of text. -/
def scrubIPAddresses (st : Scrubber) (cs : Str) : Str × Scrubber :=
  scrubIPsAux cs.length false st cs

/-- Scanner of the UID pass, with the same word-boundary flag. -/
def scrubUIDsAux : Nat → Bool → Scrubber → Str → Str × Scrubber
  | 0, _, st, cs => (cs, st)
  | _ + 1, _, st, [] => ([], st)
  | f + 1, prevW, st, c :: cs =>
    if prevW then
      let q := scrubUIDsAux f (isWordC c) st cs
      (c :: q.1, q.2)
    else
      match uidMatchAt (c :: cs) with
      | some (m, rest) =>
        let p := uidCallback st m
        let q := scrubUIDsAux f true p.2 rest
        (p.1 ++ q.1, q.2)
      | none =>
        let q := scrubUIDsAux f (isWordC c) st cs
        (c :: q.1, q.2)

/-- scrubUIDs: the UID masking pass over one line of text. -/
def scrubUIDs (st : Scrubber) (cs : Str) : Str × Scrubber :=
  scrubUIDsAux cs.length false st cs

/-! ## Line scrubbing (scrubJSONString / scrubPlainText) -/

/-- scrubJSONString: emails, then usernames, then IP addresses, then (at
level 3 only) UIDs, each pass operating on the text left by the previous
pass. -/
def scrubJSONString (st : Scrubber) (cs : Str) : Str × Scrubber :=
  let p1 := scrubEmails st cs
  let p2 := scrubUsernames p1.2 p1.1
  let p3 := scrubIPAddresses p2.2 p2.1
  if p3.2.level = 3 then scrubUIDs p3.2 p3.1 else p3

/-- scrubPlainText: the identical pass composition applied to a line that
did not parse as a JSON object. -/
def scrubPlainText (st : Scrubber) (cs : Str) : Str × Scrubber :=
  let p1 := scrubEmails st cs
  let p2 := scrubUsernames p1.2 p1.1
  let p3 := scrubIPAddresses p2.2 p2.1
  if p3.2.level = 3 then scrubUIDs p3.2 p3.1 else p3

/-! ## JSON model (encoding/json Unmarshal, for validity and the object test)

processLogLine first unmarshals the line into a string-keyed map, which
succeeds exactly when the line is one complete JSON object (or null); after
scrubbing it re-unmarshals into an empty interface, which succeeds for any
complete JSON value.  The checker below is a fuel-indexed recursive-descent
consumer of one JSON value; the mode argument selects between consuming one
value, the continuation of an array, and the continuation of an object. -/

/-- Skip JSON insignificant whitespace (space, tab, newline, return). -/
def skipWs (cs : Str) : Str :=
  cs.dropWhile (fun c => c == ' ' || c == '\t' || c == '\n' || c == '\r')

/-- Value of a hexadecimal digit, for the \u escape. -/
def hexVal (c : Char) : Option Nat :=
  if isDigitC c then some (c.toNat - 48)
  else if decide (97 ≤ c.toNat ∧ c.toNat ≤ 102) then some (c.toNat - 87)
  else if decide (65 ≤ c.toNat ∧ c.toNat ≤ 70) then some (c.toNat - 55)
  else none

/-- Consume the body of a JSON string after the opening quote, decoding
escapes, and return the decoded content and the text after the closing
quote.  Control characters below 0x20 are invalid inside a string. -/
def parseJStrAux : Nat → Str → Option (Str × Str)
  | 0, _ => none
  | f + 1, cs =>
    match cs with
    | [] => none
    | '"' :: rest => some ([], rest)
    | '\\' :: e :: rest =>
      let cont := fun (c : Char) (rem : Str) =>
        match parseJStrAux f rem with
        | some (s, r2) => some (c :: s, r2)
        | none => none
      if e == '"' then cont '"' rest
      else if e == '\\' then cont '\\' rest
      else if e == '/' then cont '/' rest
      else if e == 'b' then cont '\x08' rest
      else if e == 'f' then cont '\x0c' rest
      else if e == 'n' then cont '\n' rest
      else if e == 'r' then cont '\r' rest
      else if e == 't' then cont '\t' rest
      else if e == 'u' then
        match rest with
        | h1 :: h2 :: h3 :: h4 :: rest2 =>
          match hexVal h1, hexVal h2, hexVal h3, hexVal h4 with
          | some a, some b, some c2, some d =>
            cont (Char.ofNat (((a * 16 + b) * 16 + c2) * 16 + d)) rest2
          | _, _, _, _ => none
        | _ => none
      else none
    | c :: rest =>
      if c.toNat < 32 then none
      else
        match parseJStrAux f rest with
        | some (s, r2) => some (c :: s, r2)
        | none => none

/-- Consume the integer part of a JSON number: 0, or a nonzero digit
followed by more digits. -/
def parseIntPart : Str → Option Str
  | [] => none
  | '0' :: rest => some rest
  | c :: rest => if isDigitC c then some (rest.dropWhile isDigitC) else none

/-- Consume an optional fraction part: a dot must be followed by at least
one digit. -/
def parseFracPart : Str → Option Str
  | '.' :: rest =>
    match rest with
    | c :: r2 => if isDigitC c then some (r2.dropWhile isDigitC) else none
    | [] => none
  | cs => some cs

/-- Consume an optional exponent part. -/
def parseExpPart (cs : Str) : Option Str :=
  match cs with
  | 'e' :: rest => parseExpTail rest
  | 'E' :: rest => parseExpTail rest
  | _ => some cs
where
  parseExpTail : Str → Option Str
  | '+' :: r => parseExpDigits r
  | '-' :: r => parseExpDigits r
  | r => parseExpDigits r
  parseExpDigits : Str → Option Str
  | c :: r => if isDigitC c then some (r.dropWhile isDigitC) else none
  | [] => none

/-- Consume one JSON number. -/
def parseJNum (cs : Str) : Option Str :=
  let body := fun (t : Str) =>
    match parseIntPart t with
    | none => none
    | some r1 =>
      match parseFracPart r1 with
      | none => none
      | some r2 => parseExpPart r2
  match cs with
  | '-' :: t => body t
  | _ => body cs

/-- Consume JSON text.  Mode 0 consumes one value; mode 1 consumes the rest
of an array after an element (comma and element, repeated, then a closing
bracket); mode 2 consumes the rest of an object after an entry. -/
def pv : Nat → Nat → Str → Option Str
  | 0, _, _ => none
  | f + 1, 0, cs =>
    match skipWs cs with
    | 'n' :: 'u' :: 'l' :: 'l' :: rest => some rest
    | 't' :: 'r' :: 'u' :: 'e' :: rest => some rest
    | 'f' :: 'a' :: 'l' :: 's' :: 'e' :: rest => some rest
    | '"' :: rest =>
      match parseJStrAux rest.length rest with
      | some (_, r2) => some r2
      | none => none
    | '[' :: rest =>
      match skipWs rest with
      | ']' :: r2 => some r2
      | r2 =>
        match pv f 0 r2 with
        | some r3 => pv f 1 r3
        | none => none
    | '\x7b' :: rest =>
      match skipWs rest with
      | '\x7d' :: r2 => some r2
      | '"' :: r2 =>
        match parseJStrAux r2.length r2 with
        | some (_, r3) =>
          match skipWs r3 with
          | ':' :: r4 =>
            match pv f 0 r4 with
            | some r5 => pv f 2 r5
            | none => none
          | _ => none
        | none => none
      | _ => none
    | cs2 => parseJNum cs2
  | f + 1, 1, cs =>
    match skipWs cs with
    | ',' :: r =>
      match pv f 0 r with
      | some r2 => pv f 1 r2
      | none => none
    | ']' :: r => some r
    | _ => none
  | f + 1, _, cs =>
    match skipWs cs with
    | ',' :: r =>
      match skipWs r with
      | '"' :: r2 =>
        match parseJStrAux r2.length r2 with
        | some (_, r3) =>
          match skipWs r3 with
          | ':' :: r4 =>
            match pv f 0 r4 with
            | some r5 => pv f 2 r5
            | none => none
          | _ => none
        | none => none
      | _ => none
    | '\x7d' :: r => some r
    | _ => none

/-- Whether the text is one complete JSON value (json.Unmarshal into an
empty interface succeeds): one value, then only whitespace. -/
def jsonValid (cs : Str) : Bool :=
  match pv (cs.length + 2) 0 cs with
  | some rest => (skipWs rest).isEmpty
  | none => false

/-- Top-level entries of a JSON object, keeping for each key the decoded
string value when the value is a JSON string and none otherwise; values of
other shapes are consumed by the full checker.  This is the part of the
Unmarshal result that detectAndMapUser reads. -/
def topEntriesAux : Nat → Str → Option (List (Str × Option Str) × Str)
  | 0, _ => none
  | f + 1, cs =>
    match skipWs cs with
    | '"' :: r1 =>
      match parseJStrAux r1.length r1 with
      | some (k, r2) =>
        match skipWs r2 with
        | ':' :: r3 =>
          let r3s := skipWs r3
          let valueRes : Option (Option Str × Str) :=
            match r3s with
            | '"' :: rv =>
              match parseJStrAux rv.length rv with
              | some (v, r4) => some (some v, r4)
              | none => none
            | _ =>
              match pv (r3s.length + 2) 0 r3s with
              | some r4 => some (none, r4)
              | none => none
          match valueRes with
          | none => none
          | some (v, r4) =>
            match skipWs r4 with
            | ',' :: r5 =>
              match topEntriesAux f r5 with
              | some (es, rr) => some ((k, v) :: es, rr)
              | none => none
            | '\x7d' :: r5 => some ([(k, v)], r5)
            | _ => none
        | _ => none
      | none => none
    | _ => none

/-- Unmarshal of one line into a string-keyed map: succeeds exactly for a
complete top-level JSON object (or the JSON null, which leaves the map
empty), and returns the entry list in source order. -/
def jsonParseObjFields (cs : Str) : Option (List (Str × Option Str)) :=
  match skipWs cs with
  | '\x7b' :: r1 =>
    match skipWs r1 with
    | '\x7d' :: r2 => if (skipWs r2).isEmpty then some [] else none
    | _ =>
      match topEntriesAux (cs.length + 2) r1 with
      | some (es, rest) => if (skipWs rest).isEmpty then some es else none
      | none => none
  | 'n' :: 'u' :: 'l' :: 'l' :: r1 => if (skipWs r1).isEmpty then some [] else none
  | _ => none

/-! ## Link detection (detectAndMapUser, scrubber.go lines 261-291) -/

/-- Go map lookup on the unmarshalled object: with duplicate JSON keys the
later entry overwrites the earlier one, so the last binding wins. -/
def lookupLastA {α : Type} (k : Str) (l : List (Str × α)) : Option α := lookupA k l.reverse

/-- detectAndMapUser: read the top-level user (else username, else name)
field and the email field; when a key exists with a non-string value the
corresponding variable stays empty without falling through to the next
key.  When both username and email are non-empty, create the mapping. -/
def detectAndMapUser (st : Scrubber) (kvs : List (Str × Option Str)) : Scrubber :=
  let username : Str :=
    match lookupLastA (strL ("user")) kvs with
    | some (some s) => s
    | some none => []
    | none =>
      match lookupLastA (strL ("username")) kvs with
      | some (some s) => s
      | some none => []
      | none =>
        match lookupLastA (strL ("name")) kvs with
        | some (some s) => s
        | _ => []
  let email : Str :=
    match lookupLastA (strL ("email")) kvs with
    | some (some s) => s
    | _ => []
  if !username.isEmpty && !email.isEmpty then createUserMapping st username email else st

/-! ## Line Processor (processLogLine, scrubber.go lines 104-129) -/

/-- processLogLine: a line that does not unmarshal as a JSON object goes
down the plain-text path; a JSON object line first feeds link detection
(in mapping mode), is scrubbed on its raw text, and is re-validated: when
scrubbing broke the JSON, the original line is returned.  Every path
returns without an error. -/
def processLogLine (st : Scrubber) (line : Str) : Except Str (Str × Scrubber) :=
  match jsonParseObjFields line with
  | none => Except.ok (scrubPlainText st line)
  | some kvs =>
    let st1 := if st.useMapping then detectAndMapUser st kvs else st
    let p := scrubJSONString st1 line
    if jsonValid p.1 then Except.ok p else Except.ok (line, p.2)

/-- The ProcessFile line loop: blank lines (TrimSpace empty) are skipped
entirely; other lines go through processLogLine, and a line whose
processing reported an error would be emitted unchanged. -/
def processRun : Scrubber → List Str → List Str × Scrubber
  | st, [] => ([], st)
  | st, l :: ls =>
    if l.all isGoSpace then processRun st ls
    else
      match processLogLine st l with
      | Except.ok (out, st1) =>
        let q := processRun st1 ls
        (out :: q.1, q.2)
      | Except.error _ =>
        let q := processRun st ls
        (l :: q.1, q.2)

/-! ## Recursive link detection of the later scrubber versions

The later scrubber versions kept in the repository (src/unnamed/part_003)
replace the top-level pair detection by findUserMappingsRecursive, which
walks the whole unmarshalled JSON value and, for every object, reads the
user (else username) and email fields, creates the mapping, and then
recurses into every nested value with a Go range loop over the map.  Keys
are lower-cased before every map access in these versions.  The walk below
takes the object entries in the order of the entry list; since Go map
iteration order is unspecified, any permutation of the entries of one
object describes a possible execution on the same input. -/

/-- strings.ToLower on the ASCII range. -/
def toLowerGo (c : Char) : Char :=
  if decide (65 ≤ c.toNat ∧ c.toNat ≤ 90) then Char.ofNat (c.toNat + 32) else c

/-- Lower-case a key, as the later createUserMapping does. -/
def lowerS (s : Str) : Str := s.map toLowerGo

/-- Identity-mapper state of the later scrubber versions. -/
structure V4State where
  records : List UserMapping
  userMappings : List (Str × Nat)
  userCounter : Nat
deriving DecidableEq, Repr

/-- The empty later-version state. -/
def initV4 : V4State := ⟨[], [], 0⟩

/-- createUserMapping of the later versions: the same link-or-create logic,
with keys normalised by ToLower before every lookup and bind. -/
def createUserMappingV4 (st : V4State) (username email : Str) : V4State :=
  let ul := lowerS username
  let el := lowerS email
  match lookupA ul st.userMappings with
  | some i =>
    let m := st.records.getD i ⟨[], [], 0⟩
    if m.email = [] then
      { st with records := st.records.set i { m with email := email },
                userMappings := (el, i) :: st.userMappings }
    else st
  | none =>
    match lookupA el st.userMappings with
    | some i =>
      let m := st.records.getD i ⟨[], [], 0⟩
      if m.username = [] then
        { st with records := st.records.set i { m with username := username },
                  userMappings := (ul, i) :: st.userMappings }
      else st
    | none =>
      let counter := st.userCounter + 1
      { st with userCounter := counter,
                records := st.records ++ [⟨username, email, counter⟩],
                userMappings := (ul, st.records.length) :: (el, st.records.length) :: st.userMappings }

/-- getUserMappedName of the later versions, with the lower-cased key. -/
def getUserMappedNameV4 (st : V4State) (username : Str) : Str × V4State :=
  match lookupA (lowerS username) st.userMappings with
  | some i => (renderUser (st.records.getD i ⟨[], [], 0⟩).mappedID, st)
  | none =>
    let counter := st.userCounter + 1
    (renderUser counter,
     { st with userCounter := counter,
               records := st.records ++ [⟨username, [], counter⟩],
               userMappings := (lowerS username, st.records.length) :: st.userMappings })

/-- An unmarshalled JSON value as findUserMappingsRecursive sees it: a
string, an object, an array, or any other scalar. -/
inductive JTree where
  | str : Str → JTree
  | other : JTree
  | arr : List JTree → JTree
  | obj : List (Str × JTree) → JTree

/-- findUserMappingsRecursive: on an object, read the user (else username)
and email fields, create the mapping when both are non-empty strings, and
recurse into every value of the object in the given entry order (one
possible order of the Go range loop over the map); on an array, recurse
into every element in order.  Fuel bounds the recursion depth. -/
def walkV4 : Nat → V4State → JTree → V4State
  | 0, st, _ => st
  | f + 1, st, JTree.obj kvs =>
    let username : Str :=
      match lookupLastA (strL ("user")) kvs with
      | some (JTree.str s) => s
      | some _ => []
      | none =>
        match lookupLastA (strL ("username")) kvs with
        | some (JTree.str s) => s
        | _ => []
    let email : Str :=
      match lookupLastA (strL ("email")) kvs with
      | some (JTree.str s) => s
      | _ => []
    let st1 := if !username.isEmpty && !email.isEmpty then createUserMappingV4 st username email
               else st
    (kvs.map Prod.snd).foldl (walkV4 f) st1
  | f + 1, st, JTree.arr items => items.foldl (walkV4 f) st
  | _ + 1, st, _ => st

/-! ## Session operations, invariants, and concrete inputs used by the
theorems -/

/-- The state-mutating entry points of one scrubbing session: the cached
email/username resolutions of the masking passes, the direct identity-mapper
resolutions, the pair linking of detectAndMapUser, and the cached IP and
UID resolutions.  A run's effect on the session state is a sequence of
these. -/
inductive ScrubOp where
  | pair : Str → Str → ScrubOp
  | rUser : Str → ScrubOp
  | rEmail : Str → ScrubOp
  | gName : Str → ScrubOp
  | gEmail : Str → ScrubOp
  | rIP : Str → ScrubOp
  | rUID : Str → ScrubOp

/-- Apply one session operation to the state. -/
def applySOp (st : Scrubber) : ScrubOp → Scrubber
  | ScrubOp.pair u e => createUserMapping st u e
  | ScrubOp.rUser u => (resolveUsernameValue st u).2
  | ScrubOp.rEmail e => (resolveEmailValue st e).2
  | ScrubOp.gName u => (getUserMappedName st u).2
  | ScrubOp.gEmail e => (getUserMappedEmail st e).2
  | ScrubOp.rIP s => (ipCallback st s).2
  | ScrubOp.rUID s => (uidCallback st s).2

/-- Apply a sequence of session operations from left to right. -/
def applySOps (st : Scrubber) : List ScrubOp → Scrubber
  | [] => st
  | op :: ops => applySOps (applySOp st op) ops

/-- Cache coherence: every cached username replacement is the rendering of
the ordinal its key is currently bound to, and likewise for emails.  This
holds along runs that have not rebound a key away from its cached identity. -/
def coherentB (st : Scrubber) : Bool :=
  (st.userMap.all fun p =>
    match lookupIdx st p.1 with
    | some i => p.2 == renderUser (getRec st i).mappedID
    | none => false) &&
  (st.emailMap.all fun p =>
    match lookupIdx st p.1 with
    | some i => p.2 == renderEmailRep (getRec st i).mappedID
    | none => false)

/-- Precondition under which createUserMapping links the pair to a single
identity: the two keys are not both already bound, and a bound key's record
still lacks the complementary field (a standalone record). -/
def convergeCondB (st : Scrubber) (u e : Str) : Bool :=
  match lookupIdx st u, lookupIdx st e with
  | none, none => true
  | some i, none => (getRec st i).email.isEmpty
  | none, some i => (getRec st i).username.isEmpty
  | some _, some _ => false

/-- Sequential-ordinal invariant: the counter equals the number of records
and record i carries ordinal i + 1, so ordinals read 1, 2, 3, ... in
first-detection order. -/
def ordinalsSequentialB (st : Scrubber) : Bool :=
  (st.userCounter == st.records.length) &&
  ((List.range st.records.length).all fun i => (getRec st i).mappedID == i + 1)

/-- Text with no IP-pass match at any position, given whether the previous
character was a word character: mirrors the scanner's position structure. -/
def ipNoMatch : Bool → Str → Bool
  | _, [] => true
  | prevW, c :: cs => (prevW || (ipMatchAt (c :: cs)).isNone) && ipNoMatch (isWordC c) cs

/-- Text with no UID-pass match at any position. -/
def uidNoMatch : Bool → Str → Bool
  | _, [] => true
  | prevW, c :: cs => (prevW || (uidMatchAt (c :: cs)).isNone) && uidNoMatch (isWordC c) cs

/-- Whether the text contains the quote-colon-quote separator. -/
def hasQCQ : Str → Bool
  | c1 :: c2 :: c3 :: rest => (c1 == '"' && c2 == ':' && c3 == '"') || hasQCQ (c2 :: c3 :: rest)
  | _ => false

/-- One step of the identity mapper preserves existing identities: the
counter never decreases, records are never deleted, an existing record
keeps its ordinal, and sequential ordinal assignment is preserved. -/
def mapperStep (st st2 : Scrubber) : Prop :=
  st.userCounter ≤ st2.userCounter ∧
  st.records.length ≤ st2.records.length ∧
  (∀ i, i < st.records.length → (getRec st2 i).mappedID = (getRec st i).mappedID) ∧
  (ordinalsSequentialB st = true → ordinalsSequentialB st2 = true)

/-! ### Concrete inputs -/

/-- Line with a standalone username field. -/
def cl1 : Str := strL ("\x7b\"user\":\"bob\"\x7d")

/-- Line with a standalone email field. -/
def cl2 : Str := strL ("\x7b\"email\":\"bob@x.com\"\x7d")

/-- Line pairing the username and the email. -/
def cl3 : Str := strL ("\x7b\"user\":\"bob\",\"email\":\"bob@x.com\"\x7d")

/-- The unmarshalled top-level fields of cl3. -/
def cl3kvs : List (Str × Option Str) :=
  [(strL ("user"), some (strL ("bob"))), (strL ("email"), some (strL ("bob@x.com")))]

/-- Username line in lower case. -/
def cla : Str := strL ("\x7b\"user\":\"alice\"\x7d")

/-- The same username line with a capital letter. -/
def clA : Str := strL ("\x7b\"user\":\"Alice\"\x7d")

/-- A 30-character lowercase hex UID. -/
def uid30 : Str := strL ("0123456789abcdef0123456789abcd")

/-- A 20-character lowercase hex UID. -/
def uid20 : Str := strL ("0123456789abcdef0123")

/-- JSON line with a user, an email, and an out-of-range IP. -/
def clC4 : Str := strL ("\x7b\"user\":\"bob\",\"email\":\"bob@x.com\",\"ip\":\"999.1.2.3\"\x7d")

/-- clC4 scrubbed at level 1: identities mapped, IP untouched. -/
def outC4L1 : Str := strL ("\x7b\"user\":\"user1\",\"email\":\"user1@domain.com\",\"ip\":\"999.1.2.3\"\x7d")

/-- clC4 scrubbed at level 2: identities mapped, last octet kept. -/
def outC4L2 : Str :=
  strL ("\x7b\"user\":\"user1\",\"email\":\"user1@domain.com\",\"ip\":\"***.***.***.3\"\x7d")

/-- clC4 scrubbed at level 3: identities mapped, IP fully masked. -/
def outC4L3 : Str :=
  strL ("\x7b\"user\":\"user1\",\"email\":\"user1@domain.com\",\"ip\":\"***.***.***.***\"\x7d")

/-- JSON line whose user field value is itself an email. -/
def clC7 : Str := strL ("\x7b\"user\":\"bob@x.com\"\x7d")

/-- The username match of a JSON user field with whitespace around the
colon. -/
def c9match (ws1 ws2 v : Str) : Str :=
  '"' :: strL ("user") ++ '"' :: ws1 ++ ':' :: ws2 ++ '"' :: v ++ ['"']

/-- A JSON object line whose user key is separated from its value by the
given whitespace around the colon. -/
def c9line (ws1 ws2 v : Str) : Str := '\x7b' :: c9match ws1 ws2 v ++ ['\x7d']

/-- A top-level JSON array line containing an object with both fields. -/
def clC10 : Str := strL ("[\x7b\"user\":\"bob\",\"email\":\"bob@x.com\"\x7d]")

/-- Session state after a standalone username sighting of bob. -/
def caState1 : Scrubber := (getUserMappedName (initScrubber 1 true) (strL ("bob"))).2

/-- Session state after the standalone username and then a standalone email
sighting. -/
def caState2 : Scrubber := (getUserMappedEmail caState1 (strL ("bob@x.com"))).2

/-- Session state after the pair line then links the two sightings. -/
def caState3 : Scrubber := createUserMapping caState2 (strL ("bob")) (strL ("bob@x.com"))

/-- A nested object carrying a username/email pair. -/
def pairObj (u e : String) : JTree :=
  JTree.obj [(strL ("user"), JTree.str (strL u)), (strL ("email"), JTree.str (strL e))]

/-- Entries of a line object holding two sibling pair objects, in one order. -/
def top1kvs : List (Str × JTree) :=
  [(strL ("a"), pairObj ("u1") ("u1@x.com")), (strL ("b"), pairObj ("u2") ("u2@x.com"))]

/-- The same entries in the other order: the same Go map. -/
def top2kvs : List (Str × JTree) :=
  [(strL ("b"), pairObj ("u2") ("u2@x.com")), (strL ("a"), pairObj ("u1") ("u1@x.com"))]

/-! # Theorems

The claim theorems and their supporting lemmas. -/

set_option maxRecDepth 10000


set_option maxRecDepth 10000

/-! ## Helper lemmas -/

theorem lookupA_cons {α : Type} (k k2 : Str) (v : α) (t : List (Str × α)) :
    lookupA k ((k2, v) :: t) = if k = k2 then some v else lookupA k t := rfl

theorem lookupA_mem {α : Type} {k : Str} {l : List (Str × α)} {v : α}
    (h : lookupA k l = some v) : (k, v) ∈ l := by
  induction l with
  | nil => simp [lookupA] at h
  | cons p t ih =>
    rcases p with ⟨k2, v2⟩
    rw [lookupA_cons] at h
    by_cases hk : k = k2
    · subst hk
      simp at h
      subst h
      exact List.mem_cons_self _ _
    · simp [hk] at h
      exact List.mem_cons_of_mem _ (ih h)

theorem splitOnChar_nosep (sep : Char) (g : Str) (hg : ∀ c ∈ g, (c == sep) = false) :
    splitOnChar sep g = [g] := by
  induction g with
  | nil => rfl
  | cons c t ih =>
    have hc := hg c (List.mem_cons_self _ _)
    have ht := ih fun x hx => hg x (List.mem_cons_of_mem _ hx)
    simp [splitOnChar, hc, ht, consHead]

theorem splitOnChar_app (sep : Char) (g rest : Str) (hg : ∀ c ∈ g, (c == sep) = false) :
    splitOnChar sep (g ++ sep :: rest) = g :: splitOnChar sep rest := by
  induction g with
  | nil => simp [splitOnChar]
  | cons c t ih =>
    have hc := hg c (List.mem_cons_self _ _)
    have ht := ih fun x hx => hg x (List.mem_cons_of_mem _ hx)
    simp [splitOnChar, hc, ht, consHead]

/-! ## C3: UID masking at level 3 -/

/-- C3 (corrected part): at level 3 a matched UID (length at least 20) is
masked to 18 stars followed by the original's last 8 characters, so the
output always has length exactly 26 and ends in the original's last 4
characters. -/
theorem C3_uid_masking_amended (uid : Str) (h : MinUIDLength ≤ uid.length) :
    scrubUIDByLevel 3 uid = List.replicate 18 '*' ++ uid.drop (uid.length - 8) ∧
    (scrubUIDByLevel 3 uid).length = 26 ∧
    (scrubUIDByLevel 3 uid).drop 22 = uid.drop (uid.length - 4) := by
  have h20 : 20 ≤ uid.length := h
  have h8 : ¬ (uid.length < 8) := by omega
  have heq : scrubUIDByLevel 3 uid = List.replicate 18 '*' ++ uid.drop (uid.length - 8) := by
    simp [scrubUIDByLevel, ScrubLevelHigh, UIDTargetLength, UIDKeepChars, h8]
  refine ⟨heq, ?_, ?_⟩
  · rw [heq]
    simp [List.length_append, List.length_drop]
    omega
  · rw [heq]
    have h22 : 22 = (List.replicate 18 '*').length + 4 := by simp
    rw [h22, List.drop_append, List.drop_drop]
    congr 1
    omega

/-- C3 counterexample: the 30-character UID is not masked to stars plus its
last 4 characters (the kept tail is 8 characters), and a 20-character UID
is lengthened to 26 characters rather than keeping its own length. -/
theorem C3_counterexample :
    scrubUIDByLevel 3 uid30 ≠ List.replicate 22 '*' ++ uid30.drop 26 ∧
    uid20.length = 20 ∧ (scrubUIDByLevel 3 uid20).length = 26 := by decide

/-- C3 witness: the amended statement at the 30-character UID. -/
theorem C3_witness :
    MinUIDLength ≤ uid30.length ∧
    (scrubUIDByLevel 3 uid30 = List.replicate 18 '*' ++ uid30.drop (uid30.length - 8) ∧
      (scrubUIDByLevel 3 uid30).length = 26 ∧
      (scrubUIDByLevel 3 uid30).drop 22 = uid30.drop (uid30.length - 4)) :=
  ⟨by decide, C3_uid_masking_amended uid30 (by decide)⟩



theorem digit_ne_dot (c : Char) (h : isDigitC c = true) : (c == '.') = false := by
  by_cases hc : c = '.'
  · subst hc
    exact absurd h (by decide)
  · simp [hc]

/-- C4: a string of the IPv4 pattern shape (four dot-separated 1-3 digit
groups, octet values unrestricted) is unchanged at level 1, keeps only its
literal fourth group at level 2, and is fully masked at level 3; and on a
line holding a user, an email, and an out-of-range IP, the identity mapping
is applied at every level while the IP is rewritten only at levels 2 and 3. -/
theorem C4_ip_masking (lvl : Nat) (g1 g2 g3 g4 : Str)
    (hd : ∀ g ∈ [g1, g2, g3, g4], ∀ c ∈ g, isDigitC c = true)
    (hlvl : lvl = 1 ∨ lvl = 2 ∨ lvl = 3) :
    scrubIPByLevel ScrubLevelLow (g1 ++ '.' :: (g2 ++ '.' :: (g3 ++ '.' :: g4))) =
      g1 ++ '.' :: (g2 ++ '.' :: (g3 ++ '.' :: g4)) ∧
    scrubIPByLevel ScrubLevelMedium (g1 ++ '.' :: (g2 ++ '.' :: (g3 ++ '.' :: g4))) =
      strL ("***.***.***.") ++ g4 ∧
    scrubIPByLevel ScrubLevelHigh (g1 ++ '.' :: (g2 ++ '.' :: (g3 ++ '.' :: g4))) =
      strL ("***.***.***.***") ∧
    (lvl = 1 → (processRun (initScrubber lvl true) [clC4]).1 = [outC4L1]) ∧
    (lvl = 2 → (processRun (initScrubber lvl true) [clC4]).1 = [outC4L2]) ∧
    (lvl = 3 → (processRun (initScrubber lvl true) [clC4]).1 = [outC4L3]) := by
  have hnd : ∀ g ∈ [g1, g2, g3, g4], ∀ c ∈ g, (c == '.') = false := by
    intro g hg c hc
    exact digit_ne_dot c (hd g hg c hc)
  have hsplit : splitOnChar '.' (g1 ++ '.' :: (g2 ++ '.' :: (g3 ++ '.' :: g4))) =
      [g1, g2, g3, g4] := by
    rw [splitOnChar_app '.' g1 _ (hnd g1 (by simp)),
        splitOnChar_app '.' g2 _ (hnd g2 (by simp)),
        splitOnChar_app '.' g3 _ (hnd g3 (by simp)),
        splitOnChar_nosep '.' g4 (hnd g4 (by simp))]
  refine ⟨?_, ?_, ?_, ?_, ?_, ?_⟩
  · simp only [scrubIPByLevel]
    rw [hsplit]
    simp [ScrubLevelLow, ScrubLevelMedium, ScrubLevelHigh]
  · simp only [scrubIPByLevel]
    rw [hsplit]
    simp [ScrubLevelMedium, ScrubLevelHigh]
  · simp only [scrubIPByLevel]
    rw [hsplit]
    simp [ScrubLevelMedium, ScrubLevelHigh]
  · rintro rfl
    decide
  · rintro rfl
    decide
  · rintro rfl
    decide

/-- C4 witness: the statement at level 2 with the out-of-range address
999.999.999.999. -/
theorem C4_witness :
    scrubIPByLevel ScrubLevelLow
        (strL ("999") ++ '.' :: (strL ("999") ++ '.' :: (strL ("999") ++ '.' :: strL ("999")))) =
      strL ("999") ++ '.' :: (strL ("999") ++ '.' :: (strL ("999") ++ '.' :: strL ("999"))) ∧
    scrubIPByLevel ScrubLevelMedium
        (strL ("999") ++ '.' :: (strL ("999") ++ '.' :: (strL ("999") ++ '.' :: strL ("999")))) =
      strL ("***.***.***.") ++ strL ("999") ∧
    scrubIPByLevel ScrubLevelHigh
        (strL ("999") ++ '.' :: (strL ("999") ++ '.' :: (strL ("999") ++ '.' :: strL ("999")))) =
      strL ("***.***.***.***") ∧
    (2 = 1 → (processRun (initScrubber 2 true) [clC4]).1 = [outC4L1]) ∧
    (2 = 2 → (processRun (initScrubber 2 true) [clC4]).1 = [outC4L2]) ∧
    (2 = 3 → (processRun (initScrubber 2 true) [clC4]).1 = [outC4L3]) :=
  C4_ip_masking 2 (strL ("999")) (strL ("999")) (strL ("999")) (strL ("999"))
    (by decide) (Or.inr (Or.inl rfl))



/-- C5: a line that unmarshals as a JSON object is processed without an
error into either the scrubbed text, which re-validates as JSON, or - when
re-validation fails - exactly the original line. -/
theorem C5_json_line_dichotomy (st : Scrubber) (line : Str) (kvs : List (Str × Option Str))
    (h : jsonParseObjFields line = some kvs) :
    ∃ out st2, processLogLine st line = Except.ok (out, st2) ∧
      ((out = (scrubJSONString (if st.useMapping then detectAndMapUser st kvs else st) line).1 ∧
        jsonValid out = true) ∨ out = line) := by
  unfold processLogLine
  rw [h]
  set st1 := (if st.useMapping then detectAndMapUser st kvs else st) with hst1
  set p := scrubJSONString st1 line with hp
  by_cases hv : jsonValid p.1 = true
  · refine ⟨p.1, p.2, ?_, Or.inl ⟨rfl, hv⟩⟩
    simp [hv]
  · refine ⟨line, p.2, ?_, Or.inr rfl⟩
    simp [hv]

/-- C5 witness: the dichotomy at the pair line from the empty state. -/
theorem C5_witness :
    ∃ out st2, processLogLine (initScrubber 1 true) cl3 = Except.ok (out, st2) ∧
      ((out = (scrubJSONString (if (initScrubber 1 true).useMapping then
            detectAndMapUser (initScrubber 1 true) cl3kvs else initScrubber 1 true) cl3).1 ∧
        jsonValid out = true) ∨ out = cl3) :=
  C5_json_line_dichotomy (initScrubber 1 true) cl3 cl3kvs (by decide)

/-- C10: a top-level JSON array line is valid JSON but fails the unmarshal
into a string-keyed object, so it takes the plain-text path: no link
detection and no re-validation fallback are applied, and the email and the
username inside the array get two distinct standalone ordinals. -/
theorem C10_array_line_plain_path (st : Scrubber) :
    jsonValid clC10 = true ∧
    jsonParseObjFields clC10 = none ∧
    processLogLine st clC10 = Except.ok (scrubPlainText st clC10) ∧
    lookupID (scrubPlainText (initScrubber 1 true) clC10).2 (strL ("bob@x.com")) = some 1 ∧
    lookupID (scrubPlainText (initScrubber 1 true) clC10).2 (strL ("bob")) = some 2 := by
  refine ⟨by decide, by decide, ?_, by decide, by decide⟩
  unfold processLogLine
  rw [show jsonParseObjFields clC10 = none from by decide]

/-- C6: findUserMappingsRecursive of the later scrubber versions iterates
the object map with a Go range loop, whose order is unspecified; the two
entry orders below describe the same unmarshalled map, yet assign the two
identities opposite ordinals, so the rendered replacement of the same
username differs between the two possible executions. -/
theorem C6_walk_order_dependent :
    List.Perm top1kvs top2kvs ∧
    (∀ k : Str, lookupLastA k top1kvs = lookupLastA k top2kvs) ∧
    (getUserMappedNameV4 (walkV4 9 initV4 (JTree.obj top1kvs)) (strL ("u1"))).1 = renderUser 1 ∧
    (getUserMappedNameV4 (walkV4 9 initV4 (JTree.obj top2kvs)) (strL ("u1"))).1 = renderUser 2 ∧
    renderUser 1 ≠ renderUser 2 := by
  refine ⟨List.Perm.swap _ _ _, ?_, by decide, by decide, by decide⟩
  intro k
  by_cases ha : k = strL ("a")
  · subst ha
    rfl
  · by_cases hb : k = strL ("b")
    · subst hb
      rfl
    · simp [lookupLastA, top1kvs, top2kvs, lookupA, ha, hb]



/-- C1 counterexample: the username bob and the email bob@x.com are each
sighted standalone, then the pair line links them; the pair line is
processed, yet the rendered replacements keep the two distinct ordinals
(user1 for the username, user2@domain.com for the email), so the
occurrences do not resolve to one shared ordinal. -/
theorem C1_counterexample :
    (processRun (initScrubber 1 true) [cl1, cl2, cl3]).1 =
      [strL ("\x7b\"user\":\"user1\"\x7d"),
       strL ("\x7b\"email\":\"user2@domain.com\"\x7d"),
       strL ("\x7b\"user\":\"user1\",\"email\":\"user2@domain.com\"\x7d")] ∧
    lookupA (strL ("bob")) ((processRun (initScrubber 1 true) [cl1, cl2, cl3]).2).userMap =
      some (renderUser 1) ∧
    lookupA (strL ("bob@x.com")) ((processRun (initScrubber 1 true) [cl1, cl2, cl3]).2).emailMap =
      some (renderEmailRep 2) ∧
    renderUser 1 ≠ renderUser 2 := by decide

/-- C2 counterexample: alice and Alice differ only in letter case, yet the
run renders them user1 and user2: the identity map and the caches are
keyed by the exact string, not case-insensitively. -/
theorem C2_counterexample :
    lowerS (strL ("Alice")) = lowerS (strL ("alice")) ∧
    (processRun (initScrubber 1 true) [cla, clA]).1 =
      [strL ("\x7b\"user\":\"user1\"\x7d"), strL ("\x7b\"user\":\"user2\"\x7d")] ∧
    lookupA (strL ("alice")) ((processRun (initScrubber 1 true) [cla, clA]).2).userMap =
      some (renderUser 1) ∧
    lookupA (strL ("Alice")) ((processRun (initScrubber 1 true) [cla, clA]).2).userMap =
      some (renderUser 2) ∧
    renderUser 1 ≠ renderUser 2 := by decide

/-! ### State projection and persistence lemmas -/

theorem createUserMapping_userMap (st : Scrubber) (u e : Str) :
    (createUserMapping st u e).userMap = st.userMap := by
  unfold createUserMapping
  split
  · dsimp only
    split <;> rfl
  · split
    · dsimp only
      split <;> rfl
    · rfl

theorem createUserMapping_emailMap (st : Scrubber) (u e : Str) :
    (createUserMapping st u e).emailMap = st.emailMap := by
  unfold createUserMapping
  split
  · dsimp only
    split <;> rfl
  · split
    · dsimp only
      split <;> rfl
    · rfl

theorem getUserMappedName_userMap (st : Scrubber) (u : Str) :
    (getUserMappedName st u).2.userMap = st.userMap := by
  unfold getUserMappedName
  split <;> rfl

theorem getUserMappedName_emailMap (st : Scrubber) (u : Str) :
    (getUserMappedName st u).2.emailMap = st.emailMap := by
  unfold getUserMappedName
  split <;> rfl

theorem getUserMappedEmail_userMap (st : Scrubber) (e : Str) :
    (getUserMappedEmail st e).2.userMap = st.userMap := by
  unfold getUserMappedEmail
  split <;> rfl

theorem getUserMappedEmail_emailMap (st : Scrubber) (e : Str) :
    (getUserMappedEmail st e).2.emailMap = st.emailMap := by
  unfold getUserMappedEmail
  split <;> rfl

theorem ipCallback_userMap (st : Scrubber) (s : Str) :
    (ipCallback st s).2.userMap = st.userMap := by
  unfold ipCallback
  split <;> rfl

theorem ipCallback_emailMap (st : Scrubber) (s : Str) :
    (ipCallback st s).2.emailMap = st.emailMap := by
  unfold ipCallback
  split <;> rfl

theorem uidCallback_userMap (st : Scrubber) (s : Str) :
    (uidCallback st s).2.userMap = st.userMap := by
  unfold uidCallback
  split
  · rfl
  · split <;> rfl

theorem uidCallback_emailMap (st : Scrubber) (s : Str) :
    (uidCallback st s).2.emailMap = st.emailMap := by
  unfold uidCallback
  split
  · rfl
  · split <;> rfl

theorem resolveUsernameValue_userMap_persist (st : Scrubber) (a u r : Str)
    (h : lookupA u st.userMap = some r) :
    lookupA u (resolveUsernameValue st a).2.userMap = some r := by
  unfold resolveUsernameValue
  cases hc : lookupA a st.userMap with
  | some r2 => simpa [hc] using h
  | none =>
    by_cases hm : st.useMapping
    · simp only [hc, hm, if_true]
      rw [lookupA_cons]
      by_cases hua : u = a
      · subst hua
        rw [h] at hc
        exact absurd hc (by simp)
      · rw [if_neg hua, getUserMappedName_userMap]
        exact h
    · simp only [hc, hm, if_false]
      rw [lookupA_cons]
      by_cases hua : u = a
      · subst hua
        rw [h] at hc
        exact absurd hc (by simp)
      · rw [if_neg hua]
        exact h

theorem resolveEmailValue_emailMap_persist (st : Scrubber) (a e r : Str)
    (h : lookupA e st.emailMap = some r) :
    lookupA e (resolveEmailValue st a).2.emailMap = some r := by
  unfold resolveEmailValue
  cases hc : lookupA a st.emailMap with
  | some r2 => simpa [hc] using h
  | none =>
    by_cases hm : st.useMapping
    · simp only [hc, hm, if_true]
      rw [lookupA_cons]
      by_cases hua : e = a
      · subst hua
        rw [h] at hc
        exact absurd hc (by simp)
      · rw [if_neg hua, getUserMappedEmail_emailMap]
        exact h
    · simp only [hc, hm, if_false]
      rw [lookupA_cons]
      by_cases hua : e = a
      · subst hua
        rw [h] at hc
        exact absurd hc (by simp)
      · rw [if_neg hua]
        exact h

theorem resolveUsernameValue_emailMap (st : Scrubber) (a : Str) :
    (resolveUsernameValue st a).2.emailMap = st.emailMap := by
  unfold resolveUsernameValue
  cases hc : lookupA a st.userMap with
  | some r2 => simp [hc]
  | none =>
    by_cases hm : st.useMapping
    · simp [hc, hm, getUserMappedName_emailMap]
    · simp [hc, hm]

theorem resolveEmailValue_userMap (st : Scrubber) (a : Str) :
    (resolveEmailValue st a).2.userMap = st.userMap := by
  unfold resolveEmailValue
  cases hc : lookupA a st.emailMap with
  | some r2 => simp [hc]
  | none =>
    by_cases hm : st.useMapping
    · simp [hc, hm, getUserMappedEmail_userMap]
    · simp [hc, hm]

/-- No session operation removes or shadows an existing userMap cache
entry. -/
theorem applySOp_userMap_persist (st : Scrubber) (op : ScrubOp) (u r : Str)
    (h : lookupA u st.userMap = some r) :
    lookupA u (applySOp st op).userMap = some r := by
  cases op with
  | pair a b =>
    show lookupA u (createUserMapping st a b).userMap = some r
    rw [createUserMapping_userMap]
    exact h
  | rUser a => exact resolveUsernameValue_userMap_persist st a u r h
  | rEmail a =>
    show lookupA u (resolveEmailValue st a).2.userMap = some r
    rw [resolveEmailValue_userMap]
    exact h
  | gName a =>
    show lookupA u (getUserMappedName st a).2.userMap = some r
    rw [getUserMappedName_userMap]
    exact h
  | gEmail a =>
    show lookupA u (getUserMappedEmail st a).2.userMap = some r
    rw [getUserMappedEmail_userMap]
    exact h
  | rIP a =>
    show lookupA u (ipCallback st a).2.userMap = some r
    rw [ipCallback_userMap]
    exact h
  | rUID a =>
    show lookupA u (uidCallback st a).2.userMap = some r
    rw [uidCallback_userMap]
    exact h

/-- No session operation removes or shadows an existing emailMap cache
entry. -/
theorem applySOp_emailMap_persist (st : Scrubber) (op : ScrubOp) (e r : Str)
    (h : lookupA e st.emailMap = some r) :
    lookupA e (applySOp st op).emailMap = some r := by
  cases op with
  | pair a b =>
    show lookupA e (createUserMapping st a b).emailMap = some r
    rw [createUserMapping_emailMap]
    exact h
  | rUser a =>
    show lookupA e (resolveUsernameValue st a).2.emailMap = some r
    rw [resolveUsernameValue_emailMap]
    exact h
  | rEmail a => exact resolveEmailValue_emailMap_persist st a e r h
  | gName a =>
    show lookupA e (getUserMappedName st a).2.emailMap = some r
    rw [getUserMappedName_emailMap]
    exact h
  | gEmail a =>
    show lookupA e (getUserMappedEmail st a).2.emailMap = some r
    rw [getUserMappedEmail_emailMap]
    exact h
  | rIP a =>
    show lookupA e (ipCallback st a).2.emailMap = some r
    rw [ipCallback_emailMap]
    exact h
  | rUID a =>
    show lookupA e (uidCallback st a).2.emailMap = some r
    rw [uidCallback_emailMap]
    exact h

theorem applySOps_userMap_persist (ops : List ScrubOp) (st : Scrubber) (u r : Str)
    (h : lookupA u st.userMap = some r) :
    lookupA u (applySOps st ops).userMap = some r := by
  induction ops generalizing st with
  | nil => exact h
  | cons op ops ih => exact ih _ (applySOp_userMap_persist st op u r h)

theorem applySOps_emailMap_persist (ops : List ScrubOp) (st : Scrubber) (e r : Str)
    (h : lookupA e st.emailMap = some r) :
    lookupA e (applySOps st ops).emailMap = some r := by
  induction ops generalizing st with
  | nil => exact h
  | cons op ops ih => exact ih _ (applySOp_emailMap_persist st op e r h)

/-- After a username resolution, the cache holds the rendered value. -/
theorem resolveUsernameValue_cache (st : Scrubber) (u : Str) :
    lookupA u (resolveUsernameValue st u).2.userMap = some ((resolveUsernameValue st u).1) := by
  unfold resolveUsernameValue
  cases hc : lookupA u st.userMap with
  | some r2 => simp [hc]
  | none => simp [hc, lookupA_cons]

/-- After an email resolution, the cache holds the rendered value. -/
theorem resolveEmailValue_cache (st : Scrubber) (e : Str) :
    lookupA e (resolveEmailValue st e).2.emailMap = some ((resolveEmailValue st e).1) := by
  unfold resolveEmailValue
  cases hc : lookupA e st.emailMap with
  | some r2 => simp [hc]
  | none => simp [hc, lookupA_cons]

/-- A cached username resolves to the cached value without a state change. -/
theorem resolveUsernameValue_of_cached (st : Scrubber) (u r : Str)
    (h : lookupA u st.userMap = some r) : resolveUsernameValue st u = (r, st) := by
  simp [resolveUsernameValue, h]

/-- A cached email resolves to the cached value without a state change. -/
theorem resolveEmailValue_of_cached (st : Scrubber) (e r : Str)
    (h : lookupA e st.emailMap = some r) : resolveEmailValue st e = (r, st) := by
  simp [resolveEmailValue, h]

/-- C2 (amended): the replacement of one exact (case-included) username or
email string is stable across the whole run: after its first resolution,
any sequence of further session operations leaves a later resolution of the
same string returning the same replacement, without a state change. -/
theorem C2_exact_case_stability (st : Scrubber) (u e : Str) (ops : List ScrubOp) :
    resolveUsernameValue (applySOps (resolveUsernameValue st u).2 ops) u =
      ((resolveUsernameValue st u).1, applySOps (resolveUsernameValue st u).2 ops) ∧
    resolveEmailValue (applySOps (resolveEmailValue st e).2 ops) e =
      ((resolveEmailValue st e).1, applySOps (resolveEmailValue st e).2 ops) := by
  constructor
  · exact resolveUsernameValue_of_cached _ _ _
      (applySOps_userMap_persist ops _ u _ (resolveUsernameValue_cache st u))
  · exact resolveEmailValue_of_cached _ _ _
      (applySOps_emailMap_persist ops _ e _ (resolveEmailValue_cache st e))



theorem coherent_userMap_some (st : Scrubber) (hcoh : coherentB st = true) (u r : Str)
    (h : lookupA u st.userMap = some r) :
    ∃ i, lookupIdx st u = some i ∧ r = renderUser (getRec st i).mappedID := by
  have hmem := lookupA_mem h
  unfold coherentB at hcoh
  rw [Bool.and_eq_true] at hcoh
  have hall := List.all_eq_true.mp hcoh.1 ⟨u, r⟩ hmem
  cases hidx : lookupIdx st u with
  | none => rw [hidx] at hall; exact absurd hall (by simp)
  | some i =>
    rw [hidx] at hall
    simp only [beq_iff_eq] at hall
    exact ⟨i, rfl, hall⟩

theorem coherent_userMap_none (st : Scrubber) (hcoh : coherentB st = true) (u : Str)
    (h : lookupIdx st u = none) : lookupA u st.userMap = none := by
  cases hc : lookupA u st.userMap with
  | none => rfl
  | some r =>
    obtain ⟨i, hi, _⟩ := coherent_userMap_some st hcoh u r hc
    rw [h] at hi
    exact absurd hi (by simp)

theorem coherent_emailMap_some (st : Scrubber) (hcoh : coherentB st = true) (e r : Str)
    (h : lookupA e st.emailMap = some r) :
    ∃ i, lookupIdx st e = some i ∧ r = renderEmailRep (getRec st i).mappedID := by
  have hmem := lookupA_mem h
  unfold coherentB at hcoh
  rw [Bool.and_eq_true] at hcoh
  have hall := List.all_eq_true.mp hcoh.2 ⟨e, r⟩ hmem
  cases hidx : lookupIdx st e with
  | none => rw [hidx] at hall; exact absurd hall (by simp)
  | some i =>
    rw [hidx] at hall
    simp only [beq_iff_eq] at hall
    exact ⟨i, rfl, hall⟩

theorem coherent_emailMap_none (st : Scrubber) (hcoh : coherentB st = true) (e : Str)
    (h : lookupIdx st e = none) : lookupA e st.emailMap = none := by
  cases hc : lookupA e st.emailMap with
  | none => rfl
  | some r =>
    obtain ⟨i, hi, _⟩ := coherent_emailMap_some st hcoh e r hc
    rw [h] at hi
    exact absurd hi (by simp)

theorem getUserMappedEmail_of_mapped (st : Scrubber) (e : Str) (ie : Nat)
    (hie : lookupIdx st e = some ie) :
    getUserMappedEmail st e = (renderEmailRep (getRec st ie).mappedID, st) := by
  simp [getUserMappedEmail, hie]

theorem getUserMappedName_of_mapped (st : Scrubber) (u : Str) (iu : Nat)
    (hiu : lookupIdx st u = some iu) :
    getUserMappedName st u = (renderUser (getRec st iu).mappedID, st) := by
  simp [getUserMappedName, hiu]

/-- After the pair is linked to one ordinal n, the email and then the
username resolve to the renderings of n, and keep doing so after any
further session operations. -/
theorem linked_resolution_stable (st1 : Scrubber) (u e : Str) (n : Nat)
    (hmap1 : st1.useMapping = true)
    (hIDu : lookupID st1 u = some n) (hIDe : lookupID st1 e = some n)
    (hCU : ∀ r, lookupA u st1.userMap = some r → r = renderUser n)
    (hCE : ∀ r, lookupA e st1.emailMap = some r → r = renderEmailRep n) :
    (resolveEmailValue st1 e).1 = renderEmailRep n ∧
    (resolveUsernameValue (resolveEmailValue st1 e).2 u).1 = renderUser n ∧
    (∀ ops : List ScrubOp,
      (resolveEmailValue (applySOps
          (resolveUsernameValue (resolveEmailValue st1 e).2 u).2 ops) e).1 = renderEmailRep n ∧
      (resolveUsernameValue (applySOps
          (resolveUsernameValue (resolveEmailValue st1 e).2 u).2 ops) u).1 = renderUser n) := by
  obtain ⟨ie, hie, hnie⟩ := Option.map_eq_some'.mp hIDe
  obtain ⟨iu, hiu, hniu⟩ := Option.map_eq_some'.mp hIDu
  -- the email resolution
  have hE : resolveEmailValue st1 e = (renderEmailRep n,
      (resolveEmailValue st1 e).2) := by
    cases hc : lookupA e st1.emailMap with
    | some r =>
      have hr := hCE r hc
      subst hr
      rw [resolveEmailValue_of_cached st1 e _ hc]
    | none =>
      have : resolveEmailValue st1 e =
          (renderEmailRep n, { st1 with emailMap := (e, renderEmailRep n) :: st1.emailMap }) := by
        simp [resolveEmailValue, hc, hmap1, getUserMappedEmail_of_mapped st1 e ie hie, hnie]
      rw [this]
  have hE1 : (resolveEmailValue st1 e).1 = renderEmailRep n := by rw [hE]
  -- the state after the email resolution keeps the mapper tables of st1
  have hst2 : (resolveEmailValue st1 e).2.userMappings = st1.userMappings ∧
      (resolveEmailValue st1 e).2.records = st1.records ∧
      (resolveEmailValue st1 e).2.userMap = st1.userMap ∧
      (resolveEmailValue st1 e).2.useMapping = st1.useMapping := by
    cases hc : lookupA e st1.emailMap with
    | some r => rw [resolveEmailValue_of_cached st1 e r hc]; exact ⟨rfl, rfl, rfl, rfl⟩
    | none =>
      have : resolveEmailValue st1 e =
          (renderEmailRep n, { st1 with emailMap := (e, renderEmailRep n) :: st1.emailMap }) := by
        simp [resolveEmailValue, hc, hmap1, getUserMappedEmail_of_mapped st1 e ie hie, hnie]
      rw [this]
      exact ⟨rfl, rfl, rfl, rfl⟩
  -- the username resolution
  have hU1 : (resolveUsernameValue (resolveEmailValue st1 e).2 u).1 = renderUser n := by
    cases hc : lookupA u (resolveEmailValue st1 e).2.userMap with
    | some r =>
      have hc1 : lookupA u st1.userMap = some r := by
        rw [← hst2.2.2.1]
        exact hc
      have hr := hCU r hc1
      subst hr
      rw [resolveUsernameValue_of_cached _ u _ hc]
    | none =>
      have hiu2 : lookupIdx (resolveEmailValue st1 e).2 u = some iu := by
        unfold lookupIdx
        rw [hst2.1]
        exact hiu
      have hrec2 : getRec (resolveEmailValue st1 e).2 iu = getRec st1 iu := by
        unfold getRec
        rw [hst2.2.1]
      have hmap2 : (resolveEmailValue st1 e).2.useMapping = true := by
        rw [hst2.2.2.2]
        exact hmap1
      simp [resolveUsernameValue, hc, hmap2,
        getUserMappedName_of_mapped _ u iu hiu2, hrec2, hniu]
  -- the caches now pin both replacements
  have hcacheE : lookupA e
      (resolveUsernameValue (resolveEmailValue st1 e).2 u).2.emailMap =
      some (renderEmailRep n) := by
    rw [resolveUsernameValue_emailMap]
    have := resolveEmailValue_cache st1 e
    rw [hE1] at this
    exact this
  have hcacheU : lookupA u
      (resolveUsernameValue (resolveEmailValue st1 e).2 u).2.userMap =
      some (renderUser n) := by
    have := resolveUsernameValue_cache (resolveEmailValue st1 e).2 u
    rw [hU1] at this
    exact this
  refine ⟨hE1, hU1, fun ops => ⟨?_, ?_⟩⟩
  · rw [resolveEmailValue_of_cached _ e _ (applySOps_emailMap_persist ops _ e _ hcacheE)]
  · rw [resolveUsernameValue_of_cached _ u _ (applySOps_userMap_persist ops _ u _ hcacheU)]



theorem createUserMapping_useMapping (st : Scrubber) (u e : Str) :
    (createUserMapping st u e).useMapping = st.useMapping := by
  unfold createUserMapping
  split
  · dsimp only
    split <;> rfl
  · split
    · dsimp only
      split <;> rfl
    · rfl

theorem getD_set_same (l : List UserMapping) (i : Nat) (x d : UserMapping) (h : i < l.length) :
    (l.set i x).getD i d = x := by
  simp [List.getD, List.getElem?_set_self', h]

theorem getD_oob (l : List UserMapping) (i : Nat) (d : UserMapping) (h : l.length ≤ i) :
    l.getD i d = d := by
  simp [List.getD, List.getElem?_eq_none h]

theorem getD_concat_self (l : List UserMapping) (x d : UserMapping) :
    (l ++ [x]).getD l.length d = x := by
  simp [List.getD, List.getElem?_concat_length]

theorem getD_set_mappedID (l : List UserMapping) (i : Nat) (x d : UserMapping)
    (hx : x.mappedID = (l.getD i d).mappedID) :
    ((l.set i x).getD i d).mappedID = (l.getD i d).mappedID := by
  by_cases h : i < l.length
  · rw [getD_set_same l i x d h, hx]
  · rw [List.set_eq_of_length_le (by omega)]

/-- C1 (amended): when the pair line is processed in a coherent state in
which the username and the email are not both already mapped (any prior
mapping of one key being a standalone record lacking the complementary
field), createUserMapping binds both keys to one shared ordinal n, the
masking passes render the email as user n at domain.com and the username
as user n, and every later resolution of either key in the run keeps
rendering the same ordinal n. -/
theorem C1_linking_amended (st : Scrubber) (u e : Str)
    (hmap : st.useMapping = true)
    (hcoh : coherentB st = true)
    (hconv : convergeCondB st u e = true) :
    ∃ n : Nat,
      lookupID (createUserMapping st u e) u = some n ∧
      lookupID (createUserMapping st u e) e = some n ∧
      (resolveEmailValue (createUserMapping st u e) e).1 = renderEmailRep n ∧
      (resolveUsernameValue (resolveEmailValue (createUserMapping st u e) e).2 u).1 =
        renderUser n ∧
      (∀ ops : List ScrubOp,
        (resolveEmailValue (applySOps (resolveUsernameValue
            (resolveEmailValue (createUserMapping st u e) e).2 u).2 ops) e).1 =
          renderEmailRep n ∧
        (resolveUsernameValue (applySOps (resolveUsernameValue
            (resolveEmailValue (createUserMapping st u e) e).2 u).2 ops) u).1 =
          renderUser n) := by
  have hum1 : (createUserMapping st u e).useMapping = true := by
    rw [createUserMapping_useMapping]
    exact hmap
  have main : ∃ n : Nat,
      lookupID (createUserMapping st u e) u = some n ∧
      lookupID (createUserMapping st u e) e = some n ∧
      (∀ r, lookupA u (createUserMapping st u e).userMap = some r → r = renderUser n) ∧
      (∀ r, lookupA e (createUserMapping st u e).emailMap = some r → r = renderEmailRep n) := by
    unfold convergeCondB at hconv
    cases hu : lookupIdx st u with
    | some i =>
      cases he : lookupIdx st e with
      | some j =>
        rw [hu, he] at hconv
        exact absurd hconv (by simp)
      | none =>
        rw [hu, he] at hconv
        have hm : (getRec st i).email = [] := by simpa using hconv
        have hcreate : createUserMapping st u e =
            { st with records := st.records.set i { getRec st i with email := e },
                      userMappings := (e, i) :: st.userMappings } := by
          unfold createUserMapping
          rw [hu]
          dsimp only
          rw [if_pos hm]
        have hrecid : (getRec (createUserMapping st u e) i).mappedID =
            (getRec st i).mappedID := by
          rw [hcreate]
          exact getD_set_mappedID st.records i _ _ rfl
        have hidxu : lookupIdx (createUserMapping st u e) u = some i := by
          rw [hcreate]
          show lookupA u ((e, i) :: st.userMappings) = some i
          rw [lookupA_cons]
          by_cases hue : u = e
          · rw [if_pos hue]
          · rw [if_neg hue]
            exact hu
        have hidxe : lookupIdx (createUserMapping st u e) e = some i := by
          rw [hcreate]
          show lookupA e ((e, i) :: st.userMappings) = some i
          rw [lookupA_cons, if_pos rfl]
        refine ⟨(getRec st i).mappedID, ?_, ?_, ?_, ?_⟩
        · unfold lookupID
          rw [hidxu]
          simp only [Option.map_some']
          rw [hrecid]
        · unfold lookupID
          rw [hidxe]
          simp only [Option.map_some']
          rw [hrecid]
        · intro r hr
          rw [createUserMapping_userMap] at hr
          obtain ⟨i0, hi0, hr0⟩ := coherent_userMap_some st hcoh u r hr
          rw [hu] at hi0
          obtain rfl : i0 = i := by injection hi0 with h0; omega
          exact hr0
        · intro r hr
          rw [createUserMapping_emailMap] at hr
          rw [coherent_emailMap_none st hcoh e he] at hr
          exact absurd hr (by simp)
    | none =>
      cases he : lookupIdx st e with
      | some i =>
        rw [hu, he] at hconv
        have hm : (getRec st i).username = [] := by simpa using hconv
        have hcreate : createUserMapping st u e =
            { st with records := st.records.set i { getRec st i with username := u },
                      userMappings := (u, i) :: st.userMappings } := by
          unfold createUserMapping
          rw [hu, he]
          dsimp only
          rw [if_pos hm]
        have hrecid : (getRec (createUserMapping st u e) i).mappedID =
            (getRec st i).mappedID := by
          rw [hcreate]
          exact getD_set_mappedID st.records i _ _ rfl
        have hidxu : lookupIdx (createUserMapping st u e) u = some i := by
          rw [hcreate]
          show lookupA u ((u, i) :: st.userMappings) = some i
          rw [lookupA_cons, if_pos rfl]
        have hidxe : lookupIdx (createUserMapping st u e) e = some i := by
          rw [hcreate]
          show lookupA e ((u, i) :: st.userMappings) = some i
          rw [lookupA_cons]
          by_cases heu : e = u
          · rw [if_pos heu]
          · rw [if_neg heu]
            exact he
        refine ⟨(getRec st i).mappedID, ?_, ?_, ?_, ?_⟩
        · unfold lookupID
          rw [hidxu]
          simp only [Option.map_some']
          rw [hrecid]
        · unfold lookupID
          rw [hidxe]
          simp only [Option.map_some']
          rw [hrecid]
        · intro r hr
          rw [createUserMapping_userMap] at hr
          rw [coherent_userMap_none st hcoh u hu] at hr
          exact absurd hr (by simp)
        · intro r hr
          rw [createUserMapping_emailMap] at hr
          obtain ⟨i0, hi0, hr0⟩ := coherent_emailMap_some st hcoh e r hr
          rw [he] at hi0
          obtain rfl : i0 = i := by injection hi0 with h0; omega
          exact hr0
      | none =>
        have hcreate : createUserMapping st u e =
            { st with userCounter := st.userCounter + 1,
                      records := st.records ++ [⟨u, e, st.userCounter + 1⟩],
                      userMappings := (u, st.records.length) ::
                        (e, st.records.length) :: st.userMappings } := by
          unfold createUserMapping
          rw [hu, he]
        have hrec : getRec (createUserMapping st u e) st.records.length =
            ⟨u, e, st.userCounter + 1⟩ := by
          rw [hcreate]
          exact getD_concat_self st.records _ _
        have hidxu : lookupIdx (createUserMapping st u e) u = some st.records.length := by
          rw [hcreate]
          show lookupA u ((u, st.records.length) :: (e, st.records.length) :: st.userMappings) =
            some st.records.length
          rw [lookupA_cons, if_pos rfl]
        have hidxe : lookupIdx (createUserMapping st u e) e = some st.records.length := by
          rw [hcreate]
          show lookupA e ((u, st.records.length) :: (e, st.records.length) :: st.userMappings) =
            some st.records.length
          rw [lookupA_cons]
          by_cases heu : e = u
          · rw [if_pos heu]
          · rw [if_neg heu, lookupA_cons, if_pos rfl]
        refine ⟨st.userCounter + 1, ?_, ?_, ?_, ?_⟩
        · unfold lookupID
          rw [hidxu]
          simp only [Option.map_some']
          rw [hrec]
        · unfold lookupID
          rw [hidxe]
          simp only [Option.map_some']
          rw [hrec]
        · intro r hr
          rw [createUserMapping_userMap] at hr
          rw [coherent_userMap_none st hcoh u hu] at hr
          exact absurd hr (by simp)
        · intro r hr
          rw [createUserMapping_emailMap] at hr
          rw [coherent_emailMap_none st hcoh e he] at hr
          exact absurd hr (by simp)
  obtain ⟨n, hIDu, hIDe, hCU, hCE⟩ := main
  obtain ⟨hE1, hU1, hOps⟩ :=
    linked_resolution_stable (createUserMapping st u e) u e n hum1 hIDu hIDe hCU hCE
  exact ⟨n, hIDu, hIDe, hE1, hU1, hOps⟩

/-- C1 witness: the spec's linking scenario with the standalone email seen
first, then the pair line; the shared ordinal is pinned for the rest of the
run. -/
theorem C1_witness :
    ∃ n : Nat,
      lookupID (createUserMapping (resolveEmailValue (initScrubber 1 true)
        (strL ("bob@x.com"))).2 (strL ("bob")) (strL ("bob@x.com"))) (strL ("bob")) = some n ∧
      lookupID (createUserMapping (resolveEmailValue (initScrubber 1 true)
        (strL ("bob@x.com"))).2 (strL ("bob")) (strL ("bob@x.com"))) (strL ("bob@x.com")) =
        some n ∧
      (resolveEmailValue (createUserMapping (resolveEmailValue (initScrubber 1 true)
        (strL ("bob@x.com"))).2 (strL ("bob")) (strL ("bob@x.com"))) (strL ("bob@x.com"))).1 =
        renderEmailRep n ∧
      (resolveUsernameValue (resolveEmailValue (createUserMapping (resolveEmailValue
        (initScrubber 1 true) (strL ("bob@x.com"))).2 (strL ("bob")) (strL ("bob@x.com")))
        (strL ("bob@x.com"))).2 (strL ("bob"))).1 = renderUser n ∧
      (∀ ops : List ScrubOp,
        (resolveEmailValue (applySOps (resolveUsernameValue (resolveEmailValue
          (createUserMapping (resolveEmailValue (initScrubber 1 true)
            (strL ("bob@x.com"))).2 (strL ("bob")) (strL ("bob@x.com")))
          (strL ("bob@x.com"))).2 (strL ("bob"))).2 ops) (strL ("bob@x.com"))).1 =
          renderEmailRep n ∧
        (resolveUsernameValue (applySOps (resolveUsernameValue (resolveEmailValue
          (createUserMapping (resolveEmailValue (initScrubber 1 true)
            (strL ("bob@x.com"))).2 (strL ("bob")) (strL ("bob@x.com")))
          (strL ("bob@x.com"))).2 (strL ("bob"))).2 ops) (strL ("bob"))).1 = renderUser n) :=
  C1_linking_amended (resolveEmailValue (initScrubber 1 true) (strL ("bob@x.com"))).2
    (strL ("bob")) (strL ("bob@x.com")) (by decide) (by decide) (by decide)



theorem ordinalsSequentialB_congr (st st2 : Scrubber) (h1 : st2.records = st.records)
    (h2 : st2.userCounter = st.userCounter) :
    ordinalsSequentialB st2 = ordinalsSequentialB st := by
  unfold ordinalsSequentialB getRec
  rw [h1, h2]

theorem mapperStep_of_eq (st st2 : Scrubber) (h1 : st2.records = st.records)
    (h2 : st2.userCounter = st.userCounter) : mapperStep st st2 := by
  refine ⟨h2.ge, ?_, ?_, ?_⟩
  · rw [h1]
  · intro i _
    unfold getRec
    rw [h1]
  · intro h
    rw [ordinalsSequentialB_congr st st2 h1 h2]
    exact h

theorem mapperStep_congr (st st2 st3 : Scrubber) (h : mapperStep st st3)
    (h1 : st2.records = st3.records) (h2 : st2.userCounter = st3.userCounter) :
    mapperStep st st2 := by
  obtain ⟨ha, hb, hc, hd⟩ := h
  refine ⟨h2 ▸ ha, h1 ▸ hb, ?_, ?_⟩
  · intro i hi
    unfold getRec
    rw [h1]
    exact hc i hi
  · intro hseq
    rw [ordinalsSequentialB_congr st3 st2 h1 h2]
    exact hd hseq

theorem getD_set_ne_rec (l : List UserMapping) (i j : Nat) (x d : UserMapping) (h : j ≠ i) :
    (l.set i x).getD j d = l.getD j d := by
  simp [List.getD, List.getElem?_set_ne (Ne.symm h)]

theorem getD_append_lt (l : List UserMapping) (x d : UserMapping) (i : Nat)
    (h : i < l.length) : (l ++ [x]).getD i d = l.getD i d := by
  simp [List.getD, List.getElem?_append, h]

theorem mapperStep_set (st st2 : Scrubber) (j : Nat) (x : UserMapping)
    (h1 : st2.records = st.records.set j x) (h2 : st2.userCounter = st.userCounter)
    (hx : x.mappedID = (getRec st j).mappedID) : mapperStep st st2 := by
  refine ⟨h2.ge, ?_, ?_, ?_⟩
  · rw [h1, List.length_set]
  · intro i _
    unfold getRec
    rw [h1]
    by_cases hij : i = j
    · subst hij
      exact getD_set_mappedID st.records i x _ hx
    · rw [getD_set_ne_rec st.records j i x _ hij]
  · intro hseq
    unfold ordinalsSequentialB at hseq ⊢
    rw [Bool.and_eq_true] at hseq ⊢
    rw [h1, h2, List.length_set]
    refine ⟨hseq.1, ?_⟩
    rw [List.all_eq_true] at hseq ⊢
    intro i hi
    have hi2 := List.mem_range.mp hi
    have := hseq.2 i hi
    unfold getRec at this ⊢
    rw [h1]
    by_cases hij : i = j
    · subst hij
      rw [show (st.records.set i x).getD i ⟨[], [], 0⟩ = x from ?_]
      · rw [show x.mappedID = (st.records.getD i ⟨[], [], 0⟩).mappedID from hx]
        exact this
      · exact getD_set_same st.records i x _ hi2
    · rw [getD_set_ne_rec st.records j i x _ hij]
      exact this

theorem mapperStep_concat (st st2 : Scrubber) (rec : UserMapping)
    (h1 : st2.records = st.records ++ [rec]) (h2 : st2.userCounter = st.userCounter + 1)
    (hrec : rec.mappedID = st.userCounter + 1) : mapperStep st st2 := by
  refine ⟨by omega, ?_, ?_, ?_⟩
  · rw [h1, List.length_append]
    simp
  · intro i hi
    unfold getRec
    rw [h1, getD_append_lt st.records rec _ i hi]
  · intro hseq
    unfold ordinalsSequentialB at hseq ⊢
    rw [Bool.and_eq_true] at hseq ⊢
    have hcnt : st.userCounter = st.records.length := by
      have := hseq.1
      simpa using this
    rw [h1, h2, List.length_append]
    constructor
    · simp [hcnt]
    · rw [List.all_eq_true]
      intro i hi
      have hi2 := List.mem_range.mp hi
      simp only [List.length_singleton] at hi2
      unfold getRec
      rw [h1]
      by_cases hlt : i < st.records.length
      · rw [getD_append_lt st.records rec _ i hlt]
        have := List.all_eq_true.mp hseq.2 i (List.mem_range.mpr hlt)
        unfold getRec at this
        exact this
      · have hieq : i = st.records.length := by omega
        subst hieq
        rw [getD_concat_self]
        simp [hrec, hcnt]

theorem createUserMapping_mapperStep (st : Scrubber) (u e : Str) :
    mapperStep st (createUserMapping st u e) := by
  unfold createUserMapping
  cases hu : lookupIdx st u with
  | some i =>
    dsimp only
    split
    · exact mapperStep_set st _ i _ rfl rfl rfl
    · exact mapperStep_of_eq st st rfl rfl
  | none =>
    cases he : lookupIdx st e with
    | some i =>
      dsimp only
      split
      · exact mapperStep_set st _ i _ rfl rfl rfl
      · exact mapperStep_of_eq st st rfl rfl
    | none => exact mapperStep_concat st _ _ rfl rfl rfl

theorem getUserMappedName_mapperStep (st : Scrubber) (u : Str) :
    mapperStep st (getUserMappedName st u).2 := by
  unfold getUserMappedName
  cases hu : lookupIdx st u with
  | some i => exact mapperStep_of_eq st st rfl rfl
  | none => exact mapperStep_concat st _ _ rfl rfl rfl

theorem getUserMappedEmail_mapperStep (st : Scrubber) (e : Str) :
    mapperStep st (getUserMappedEmail st e).2 := by
  unfold getUserMappedEmail
  cases hu : lookupIdx st e with
  | some i => exact mapperStep_of_eq st st rfl rfl
  | none => exact mapperStep_concat st _ _ rfl rfl rfl

theorem ipCallback_mapper (st : Scrubber) (s : Str) :
    (ipCallback st s).2.records = st.records ∧ (ipCallback st s).2.userCounter = st.userCounter := by
  unfold ipCallback
  split <;> exact ⟨rfl, rfl⟩

theorem uidCallback_mapper (st : Scrubber) (s : Str) :
    (uidCallback st s).2.records = st.records ∧
    (uidCallback st s).2.userCounter = st.userCounter := by
  unfold uidCallback
  split
  · exact ⟨rfl, rfl⟩
  · split <;> exact ⟨rfl, rfl⟩

theorem applySOp_mapperStep (st : Scrubber) (op : ScrubOp) :
    mapperStep st (applySOp st op) := by
  cases op with
  | pair a b => exact createUserMapping_mapperStep st a b
  | rUser a =>
    show mapperStep st (resolveUsernameValue st a).2
    unfold resolveUsernameValue
    cases hc : lookupA a st.userMap with
    | some r => exact mapperStep_of_eq st st rfl rfl
    | none =>
      dsimp only
      by_cases hm : st.useMapping
      · rw [if_pos hm]
        exact mapperStep_congr st _ _ (getUserMappedName_mapperStep st a) rfl rfl
      · rw [if_neg hm]
        exact mapperStep_of_eq st _ rfl rfl
  | rEmail a =>
    show mapperStep st (resolveEmailValue st a).2
    unfold resolveEmailValue
    cases hc : lookupA a st.emailMap with
    | some r => exact mapperStep_of_eq st st rfl rfl
    | none =>
      dsimp only
      by_cases hm : st.useMapping
      · rw [if_pos hm]
        exact mapperStep_congr st _ _ (getUserMappedEmail_mapperStep st a) rfl rfl
      · rw [if_neg hm]
        exact mapperStep_of_eq st _ rfl rfl
  | gName a => exact getUserMappedName_mapperStep st a
  | gEmail a => exact getUserMappedEmail_mapperStep st a
  | rIP a =>
    exact mapperStep_of_eq st _ (ipCallback_mapper st a).1 (ipCallback_mapper st a).2
  | rUID a =>
    exact mapperStep_of_eq st _ (uidCallback_mapper st a).1 (uidCallback_mapper st a).2

/-- C8 (amended): every session operation leaves the ordinal counter
non-decreasing, never deletes a record, never renumbers an existing
record, and preserves sequential first-detection ordinal assignment
(1, 2, 3, ...); however a key can be rebound to a different identity
record, see the counterexample. -/
theorem C8_mapper_invariants (st : Scrubber) (op : ScrubOp) :
    st.userCounter ≤ (applySOp st op).userCounter ∧
    st.records.length ≤ (applySOp st op).records.length ∧
    (∀ i, i < st.records.length →
      (getRec (applySOp st op) i).mappedID = (getRec st i).mappedID) ∧
    (ordinalsSequentialB st = true → ordinalsSequentialB (applySOp st op) = true) :=
  applySOp_mapperStep st op

/-- C8 witness: the invariants at the state holding two standalone records
when the pair line links them. -/
theorem C8_witness :
    caState2.userCounter ≤
      (applySOp caState2 (ScrubOp.pair (strL ("bob")) (strL ("bob@x.com")))).userCounter ∧
    (getRec (applySOp caState2 (ScrubOp.pair (strL ("bob")) (strL ("bob@x.com")))) 0).mappedID =
      (getRec caState2 0).mappedID ∧
    ordinalsSequentialB (applySOp caState2 (ScrubOp.pair (strL ("bob")) (strL ("bob@x.com")))) =
      true :=
  ⟨(C8_mapper_invariants caState2 (ScrubOp.pair (strL ("bob")) (strL ("bob@x.com")))).1,
   (C8_mapper_invariants caState2 (ScrubOp.pair (strL ("bob")) (strL ("bob@x.com")))).2.2.1 0
     (by decide),
   (C8_mapper_invariants caState2 (ScrubOp.pair (strL ("bob")) (strL ("bob@x.com")))).2.2.2
     (by decide)⟩

/-- C8 counterexample: after bob and bob@x.com were each given standalone
identities, the pair line rebinds the email key from its identity (ordinal
2) onto the username's identity record (ordinal 1): a key that already
maps to an identity is rebound to a different identity record. -/
theorem C8_counterexample :
    lookupID caState2 (strL ("bob@x.com")) = some 2 ∧
    caState3 = createUserMapping caState2 (strL ("bob")) (strL ("bob@x.com")) ∧
    lookupID caState3 (strL ("bob@x.com")) = some 1 ∧
    (2 : Nat) ≠ 1 := by decide



theorem scrubIPsAux_noMatch : ∀ (cs : Str) (f : Nat) (prev : Bool) (st : Scrubber),
    ipNoMatch prev cs = true → cs.length ≤ f → scrubIPsAux f prev st cs = (cs, st) := by
  intro cs
  induction cs with
  | nil =>
    intro f prev st _ _
    cases f <;> rfl
  | cons c cs ih =>
    intro f prev st h hf
    obtain ⟨f2, rfl⟩ : ∃ f2, f = f2 + 1 := ⟨f - 1, by simp at hf; omega⟩
    unfold ipNoMatch at h
    rw [Bool.and_eq_true] at h
    obtain ⟨h1, h2⟩ := h
    have hf2 : cs.length ≤ f2 := by simp at hf; omega
    by_cases hp : prev = true
    · subst hp
      show (if true then _ else _) = _
      rw [if_pos rfl]
      rw [ih f2 (isWordC c) st h2 hf2]
    · have hp2 : prev = false := by revert hp; cases prev <;> simp
      subst hp2
      have hnone : ipMatchAt (c :: cs) = none := by
        simp at h1
        exact h1
      show (if false then _ else _) = _
      rw [if_neg (by simp)]
      rw [hnone]
      rw [ih f2 (isWordC c) st h2 hf2]

theorem scrubUIDsAux_noMatch : ∀ (cs : Str) (f : Nat) (prev : Bool) (st : Scrubber),
    uidNoMatch prev cs = true → cs.length ≤ f → scrubUIDsAux f prev st cs = (cs, st) := by
  intro cs
  induction cs with
  | nil =>
    intro f prev st _ _
    cases f <;> rfl
  | cons c cs ih =>
    intro f prev st h hf
    obtain ⟨f2, rfl⟩ : ∃ f2, f = f2 + 1 := ⟨f - 1, by simp at hf; omega⟩
    unfold uidNoMatch at h
    rw [Bool.and_eq_true] at h
    obtain ⟨h1, h2⟩ := h
    have hf2 : cs.length ≤ f2 := by simp at hf; omega
    by_cases hp : prev = true
    · subst hp
      show (if true then _ else _) = _
      rw [if_pos rfl]
      rw [ih f2 (isWordC c) st h2 hf2]
    · have hp2 : prev = false := by revert hp; cases prev <;> simp
      subst hp2
      have hnone : uidMatchAt (c :: cs) = none := by
        simp at h1
        exact h1
      show (if false then _ else _) = _
      rw [if_neg (by simp)]
      rw [hnone]
      rw [ih f2 (isWordC c) st h2 hf2]

theorem ipMatchAt_none_of_head (c : Char) (cs : Str) (h : isDigitC c = false) :
    ipMatchAt (c :: cs) = none := by
  unfold ipMatchAt ipGroup
  simp [List.takeWhile_cons, h]

theorem uidMatchAt_none_of_head (c : Char) (cs : Str) (h : isHexLower c = false) :
    uidMatchAt (c :: cs) = none := by
  unfold uidMatchAt
  simp [List.takeWhile_cons, h, MinUIDLength]

theorem isWordC_of_digit (c : Char) (h : isDigitC c = true) : isWordC c = true := by
  simp [isWordC, h]

theorem natToStrAux_digits : ∀ (f n : Nat) (c : Char), c ∈ natToStrAux f n → isDigitC c = true := by
  intro f
  induction f with
  | zero =>
    intro n c hc
    simp [natToStrAux] at hc
  | succ f ih =>
    intro n c hc
    unfold natToStrAux at hc
    by_cases h : n < 10
    · rw [if_pos h] at hc
      simp at hc
      subst hc
      interval_cases n <;> decide
    · rw [if_neg h] at hc
      rw [List.mem_append] at hc
      cases hc with
      | inl h2 => exact ih _ _ h2
      | inr h2 =>
        simp at h2
        subst h2
        have hlt : n % 10 < 10 := Nat.mod_lt _ (by omega)
        revert hlt
        generalize n % 10 = k
        intro hlt
        interval_cases k <;> decide

theorem natToStr_digits (n : Nat) : ∀ c ∈ natToStr n, isDigitC c = true :=
  fun c hc => natToStrAux_digits _ _ c hc

theorem ipNoMatch_allWord (l : Str) (h : ∀ c ∈ l, isWordC c = true) :
    ipNoMatch true l = true := by
  induction l with
  | nil => rfl
  | cons c cs ih =>
    unfold ipNoMatch
    rw [Bool.and_eq_true]
    refine ⟨by simp, ?_⟩
    rw [h c (List.mem_cons_self _ _)]
    exact ih fun x hx => h x (List.mem_cons_of_mem _ hx)

theorem uidNoMatch_allWord (l : Str) (h : ∀ c ∈ l, isWordC c = true) :
    uidNoMatch true l = true := by
  induction l with
  | nil => rfl
  | cons c cs ih =>
    unfold uidNoMatch
    rw [Bool.and_eq_true]
    refine ⟨by simp, ?_⟩
    rw [h c (List.mem_cons_self _ _)]
    exact ih fun x hx => h x (List.mem_cons_of_mem _ hx)

theorem ipNoMatch_wordBlock (ds tail : Str) (h : ∀ c ∈ ds, isWordC c = true) :
    ipNoMatch true (ds ++ tail) = ipNoMatch true tail := by
  induction ds with
  | nil => rfl
  | cons d ds ih =>
    rw [List.cons_append]
    calc ipNoMatch true (d :: (ds ++ tail))
        = ipNoMatch (isWordC d) (ds ++ tail) := by simp [ipNoMatch]
      _ = ipNoMatch true (ds ++ tail) := by rw [h d (List.mem_cons_self _ _)]
      _ = ipNoMatch true tail := ih fun x hx => h x (List.mem_cons_of_mem _ hx)

theorem uidNoMatch_wordBlock (ds tail : Str) (h : ∀ c ∈ ds, isWordC c = true) :
    uidNoMatch true (ds ++ tail) = uidNoMatch true tail := by
  induction ds with
  | nil => rfl
  | cons d ds ih =>
    rw [List.cons_append]
    calc uidNoMatch true (d :: (ds ++ tail))
        = uidNoMatch (isWordC d) (ds ++ tail) := by simp [uidNoMatch]
      _ = uidNoMatch true (ds ++ tail) := by rw [h d (List.mem_cons_self _ _)]
      _ = uidNoMatch true tail := ih fun x hx => h x (List.mem_cons_of_mem _ hx)

theorem renderUser_allWordTail (n : Nat) :
    ∀ c ∈ 's' :: 'e' :: 'r' :: natToStr n, isWordC c = true := by
  intro c hc
  simp only [List.mem_cons] at hc
  rcases hc with rfl | rfl | rfl | hc
  · decide
  · decide
  · decide
  · exact isWordC_of_digit c (natToStr_digits n c hc)

theorem ipNoMatch_renderUser (n : Nat) : ipNoMatch false (renderUser n) = true := by
  show ipNoMatch false ('u' :: 's' :: 'e' :: 'r' :: natToStr n) = true
  unfold ipNoMatch
  rw [ipMatchAt_none_of_head 'u' _ (by decide)]
  simp only [Option.isNone_none, Bool.or_true, Bool.true_and]
  rw [show isWordC 'u' = true from by decide]
  exact ipNoMatch_allWord _ (renderUser_allWordTail n)

theorem uidNoMatch_renderUser (n : Nat) : uidNoMatch false (renderUser n) = true := by
  show uidNoMatch false ('u' :: 's' :: 'e' :: 'r' :: natToStr n) = true
  unfold uidNoMatch
  rw [uidMatchAt_none_of_head 'u' _ (by decide)]
  simp only [Option.isNone_none, Bool.or_true, Bool.true_and]
  rw [show isWordC 'u' = true from by decide]
  exact uidNoMatch_allWord _ (renderUser_allWordTail n)

theorem renderEmailRep_shape (n : Nat) :
    renderEmailRep n =
      'u' :: (('s' :: 'e' :: 'r' :: natToStr n) ++ '@' :: strL ("domain.com")) := by
  show strL ("user") ++ natToStr n ++ strL ("@domain.com") = _
  simp [strL]

theorem ipNoMatch_renderEmailRep (n : Nat) : ipNoMatch false (renderEmailRep n) = true := by
  rw [renderEmailRep_shape]
  unfold ipNoMatch
  rw [ipMatchAt_none_of_head 'u' _ (by decide)]
  simp only [Option.isNone_none, Bool.or_true, Bool.true_and]
  rw [show isWordC 'u' = true from by decide]
  rw [ipNoMatch_wordBlock _ _ (renderUser_allWordTail n)]
  decide

theorem uidNoMatch_renderEmailRep (n : Nat) : uidNoMatch false (renderEmailRep n) = true := by
  rw [renderEmailRep_shape]
  unfold uidNoMatch
  rw [uidMatchAt_none_of_head 'u' _ (by decide)]
  simp only [Option.isNone_none, Bool.or_true, Bool.true_and]
  rw [show isWordC 'u' = true from by decide]
  rw [uidNoMatch_wordBlock _ _ (renderUser_allWordTail n)]
  decide

/-- C7 (amended): the IP and UID passes never re-match text emitted by the
email or username passes: every replacement those passes produce (user n,
or user n at domain.com) is left unchanged, with unchanged session state,
by the IP pass and by the UID pass, for every ordinal n. -/
theorem C7_passes_amended (n : Nat) (st : Scrubber) :
    scrubIPAddresses st (renderUser n) = (renderUser n, st) ∧
    scrubIPAddresses st (renderEmailRep n) = (renderEmailRep n, st) ∧
    scrubUIDs st (renderUser n) = (renderUser n, st) ∧
    scrubUIDs st (renderEmailRep n) = (renderEmailRep n, st) := by
  refine ⟨?_, ?_, ?_, ?_⟩
  · exact scrubIPsAux_noMatch _ _ _ st (ipNoMatch_renderUser n) le_rfl
  · exact scrubIPsAux_noMatch _ _ _ st (ipNoMatch_renderEmailRep n) le_rfl
  · exact scrubUIDsAux_noMatch _ _ _ st (uidNoMatch_renderUser n) le_rfl
  · exact scrubUIDsAux_noMatch _ _ _ st (uidNoMatch_renderEmailRep n) le_rfl

/-- C7 counterexample: on a line whose user field value is an email, the
email pass rewrites the value first and the username pass then re-matches
and re-maps the replacement (user1 at domain.com becomes user2), so the
composition differs from applying the passes in the other order. -/
theorem C7_counterexample :
    (scrubUsernames (scrubEmails (initScrubber 1 true) clC7).2
        (scrubEmails (initScrubber 1 true) clC7).1).1 =
      strL ("\x7b\"user\":\"user2\"\x7d") ∧
    (scrubEmails (scrubUsernames (initScrubber 1 true) clC7).2
        (scrubUsernames (initScrubber 1 true) clC7).1).1 =
      strL ("\x7b\"user\":\"user1\"\x7d") ∧
    (scrubUsernames (scrubEmails (initScrubber 1 true) clC7).2
        (scrubEmails (initScrubber 1 true) clC7).1).1 ≠
      (scrubEmails (scrubUsernames (initScrubber 1 true) clC7).2
        (scrubUsernames (initScrubber 1 true) clC7).1).1 ∧
    (scrubEmails (initScrubber 1 true) clC7).1 = strL ("\x7b\"user\":\"user1@domain.com\"\x7d") := by
  decide



theorem takeWhile_block (p : Char → Bool) (xs : Str) (y : Char) (ys : Str)
    (hx : ∀ c ∈ xs, p c = true) (hy : p y = false) :
    (xs ++ y :: ys).takeWhile p = xs := by
  induction xs with
  | nil => simp [List.takeWhile_cons, hy]
  | cons x xs ih =>
    rw [List.cons_append, List.takeWhile_cons, hx x (List.mem_cons_self _ _)]
    simp only [if_true]
    rw [ih fun c hc => hx c (List.mem_cons_of_mem _ hc)]

theorem usernameTailMatch_shape (ws1 ws2 v rest : Str)
    (hw1 : ∀ c ∈ ws1, isSpaceRe c = true) (hw2 : ∀ c ∈ ws2, isSpaceRe c = true)
    (hv : v ≠ []) (hvq : ∀ c ∈ v, (c == '"') = false) :
    usernameTailMatch (ws1 ++ ':' :: (ws2 ++ '"' :: (v ++ '"' :: rest))) =
      some (ws1 ++ ':' :: ws2 ++ '"' :: v ++ ['"'], rest) := by
  have hvq2 : ∀ c ∈ v, (fun c => !(c == '"')) c = true := by
    intro c hc
    simp [hvq c hc]
  have e1 : List.takeWhile isSpaceRe (ws1 ++ ':' :: (ws2 ++ '"' :: (v ++ '"' :: rest))) = ws1 :=
    takeWhile_block isSpaceRe ws1 ':' _ hw1 (by decide)
  have e2 : List.drop ws1.length (ws1 ++ ':' :: (ws2 ++ '"' :: (v ++ '"' :: rest))) =
      ':' :: (ws2 ++ '"' :: (v ++ '"' :: rest)) := List.drop_left ws1 _
  have e3 : List.takeWhile isSpaceRe (ws2 ++ '"' :: (v ++ '"' :: rest)) = ws2 :=
    takeWhile_block isSpaceRe ws2 '"' _ hw2 (by decide)
  have e4 : List.drop ws2.length (ws2 ++ '"' :: (v ++ '"' :: rest)) =
      '"' :: (v ++ '"' :: rest) := List.drop_left ws2 _
  have e5 : List.takeWhile (fun c => !(c == '"')) (v ++ '"' :: rest) = v :=
    takeWhile_block (fun c => !(c == '"')) v '"' rest hvq2 (by decide)
  have e6 : List.drop v.length (v ++ '"' :: rest) = '"' :: rest := List.drop_left v _
  have hne : v.length ≠ 0 := by simpa using hv
  simp only [usernameTailMatch, e1, e2, e3, e4, e5, e6, hne, if_false, ite_false,
    if_neg hne]

theorem usernameMatchAt_shape (ws1 ws2 v rest : Str)
    (hw1 : ∀ c ∈ ws1, isSpaceRe c = true) (hw2 : ∀ c ∈ ws2, isSpaceRe c = true)
    (hv : v ≠ []) (hvq : ∀ c ∈ v, (c == '"') = false) :
    usernameMatchAt ('"' :: (strL ("user") ++ '"' ::
        (ws1 ++ ':' :: (ws2 ++ '"' :: (v ++ '"' :: rest))))) =
      some ('"' :: strL ("user") ++ '"' :: (ws1 ++ ':' :: ws2 ++ '"' :: v ++ ['"']), rest) := by
  have hpre : (strL ("user")).isPrefixOf
      (strL ("user") ++ '"' :: (ws1 ++ ':' :: (ws2 ++ '"' :: (v ++ '"' :: rest)))) = true := by
    rw [ List.isPrefixOf_iff_prefix]
    exact List.prefix_append _ _
  have hdrop : List.drop (strL ("user")).length
      (strL ("user") ++ '"' :: (ws1 ++ ':' :: (ws2 ++ '"' :: (v ++ '"' :: rest)))) =
      '"' :: (ws1 ++ ':' :: (ws2 ++ '"' :: (v ++ '"' :: rest))) := List.drop_left _ _
  simp only [usernameMatchAt, usernameKeyMatch, hpre, if_true, hdrop,
    usernameTailMatch_shape ws1 ws2 v rest hw1 hw2 hv hvq]

theorem usernameMatchAt_none_head (c : Char) (cs : Str) (h : (c == '"') = false) :
    usernameMatchAt (c :: cs) = none := by
  have hne : c ≠ '"' := by simpa using h
  unfold usernameMatchAt
  split
  · rename_i heq
    rw [List.cons.injEq] at heq
    exact absurd heq.1 hne
  · rfl

theorem hasQCQ_step1 (c1 c2 c3 : Char) (r : Str) (h : (c1 == '"') = false) :
    hasQCQ (c1 :: c2 :: c3 :: r) = hasQCQ (c2 :: c3 :: r) := by
  simp [hasQCQ, h]

theorem hasQCQ_step2 (c1 c2 c3 : Char) (r : Str) (h : (c2 == ':') = false) :
    hasQCQ (c1 :: c2 :: c3 :: r) = hasQCQ (c2 :: c3 :: r) := by
  simp [hasQCQ, h]

theorem hasQCQ_step3 (c1 c2 c3 : Char) (r : Str) (h : (c3 == '"') = false) :
    hasQCQ (c1 :: c2 :: c3 :: r) = hasQCQ (c2 :: c3 :: r) := by
  simp [hasQCQ, h]

theorem hasQCQ_short (s : Str) (h : s.length ≤ 2) : hasQCQ s = false := by
  match s, h with
  | [], _ => rfl
  | [c], _ => rfl
  | [c1, c2], _ => rfl

theorem hasQCQ_nonquote_block (xs r : Str) (hx : ∀ c ∈ xs, (c == '"') = false) :
    hasQCQ (xs ++ r) = hasQCQ r := by
  induction xs with
  | nil => rfl
  | cons x xs ih =>
    rw [List.cons_append]
    have hxs : hasQCQ (xs ++ r) = hasQCQ r := ih fun c hc => hx c (List.mem_cons_of_mem _ hc)
    cases he : xs ++ r with
    | nil =>
      rw [he] at hxs
      rw [hasQCQ_short [x] (by simp), ← hxs]
      rfl
    | cons a t =>
      cases t with
      | nil =>
        rw [he] at hxs
        rw [hasQCQ_short [x, a] (by simp), ← hxs]
        rfl
      | cons b t2 =>
        rw [hasQCQ_step1 x a b t2 (hx x (List.mem_cons_self _ _)), ← he]
        exact hxs

theorem splitQCQ_of_noQCQ (s : Str) (h : hasQCQ s = false) : splitQCQ s = [s] := by
  induction s with
  | nil => rfl
  | cons c s ih =>
    cases s with
    | nil => rfl
    | cons c2 s2 =>
      cases s2 with
      | nil => rfl
      | cons c3 s3 =>
        unfold hasQCQ at h
        rw [Bool.or_eq_false_iff] at h
        unfold splitQCQ
        rw [if_neg (by simp [h.1])]
        rw [ih h.2]
        rfl



theorem space_ne_colon (c : Char) (h : isSpaceRe c = true) : (c == ':') = false := by
  by_cases hc : c = ':'
  · subst hc
    exact absurd h (by decide)
  · simp [hc]

theorem space_ne_quote (c : Char) (h : isSpaceRe c = true) : (c == '"') = false := by
  by_cases hc : c = '"'
  · subst hc
    exact absurd h (by decide)
  · simp [hc]

theorem hasQCQ_quote_block (a : Char) (xs r : Str) (ha : (a == ':') = false) :
    hasQCQ ('"' :: a :: (xs ++ r)) = hasQCQ (a :: (xs ++ r)) := by
  cases he : xs ++ r with
  | nil => rfl
  | cons b t => exact hasQCQ_step2 '"' a b t ha

theorem hasQCQ_c9match (ws1 ws2 v : Str)
    (hw1 : ∀ c ∈ ws1, isSpaceRe c = true) (hw2 : ∀ c ∈ ws2, isSpaceRe c = true)
    (hws : ws1 ≠ [] ∨ ws2 ≠ [])
    (hv : v ≠ []) (hvq : ∀ c ∈ v, (c == '"') = false) (hvc : ∀ c ∈ v, (c == ':') = false) :
    hasQCQ (c9match ws1 ws2 v) = false := by
  have hshape : c9match ws1 ws2 v =
      '"' :: 'u' :: 's' :: 'e' :: 'r' :: '"' ::
        (ws1 ++ ':' :: (ws2 ++ '"' :: (v ++ ['"']))) := by
    simp [c9match, strL]
  rw [hshape]
  rw [hasQCQ_step2 '"' 'u' 's' _ (by decide)]
  rw [show ('u' :: 's' :: 'e' :: 'r' :: '"' ::
      (ws1 ++ ':' :: (ws2 ++ '"' :: (v ++ ['"']))) : Str) =
      (['u', 's', 'e', 'r'] : Str) ++ ('"' :: (ws1 ++ ':' :: (ws2 ++ '"' :: (v ++ ['"']))))
    from rfl]
  rw [hasQCQ_nonquote_block (['u', 's', 'e', 'r'] : Str) _ (by decide)]
  -- now at the quote before the whitespace-separated colon
  have hfinal : hasQCQ ('"' :: (v ++ (['"'] : Str))) = false := by
    cases v with
    | nil => exact absurd rfl hv
    | cons a v2 =>
      rw [List.cons_append]
      rw [hasQCQ_quote_block a v2 ['"'] (hvc a (List.mem_cons_self _ _))]
      rw [show a :: (v2 ++ (['"'] : Str)) = (a :: v2) ++ ['"'] from rfl]
      rw [hasQCQ_nonquote_block (a :: v2) ['"'] hvq]
      rfl
  cases hws1 : ws1 with
  | cons w ws1b =>
    have hwspace := hw1 w (by rw [hws1]; exact List.mem_cons_self _ _)
    rw [List.cons_append]
    rw [hasQCQ_quote_block w ws1b (':' :: (ws2 ++ '"' :: (v ++ ['"'])))
      (space_ne_colon w hwspace)]
    rw [show w :: (ws1b ++ ':' :: (ws2 ++ '"' :: (v ++ ['"']))) =
        ((w :: ws1b ++ ':' :: ws2) ++ ('"' :: (v ++ ['"'])) : Str) from by simp]
    rw [hasQCQ_nonquote_block (w :: ws1b ++ ':' :: ws2) _ ?hblock]
    · exact hfinal
    case hblock =>
      intro c hc
      simp only [List.mem_cons, List.mem_append] at hc
      rcases hc with (rfl | hc) | (rfl | hc)
      · exact space_ne_quote c (hw1 c (by rw [hws1]; exact List.mem_cons_self _ _))
      · exact space_ne_quote c (hw1 c (by rw [hws1]; exact List.mem_cons_of_mem _ hc))
      · decide
      · exact space_ne_quote c (hw2 c hc)
  | nil =>
    have hws2 : ws2 ≠ [] := by
      rcases hws with h1 | h1
      · exact absurd hws1 h1
      · exact h1
    cases hws2b : ws2 with
    | nil => exact absurd hws2b hws2
    | cons w ws2b =>
      have hwspace := hw2 w (by rw [hws2b]; exact List.mem_cons_self _ _)
      simp only [List.nil_append, List.cons_append]
      rw [hasQCQ_step3 '"' ':' w _ (space_ne_quote w hwspace)]
      rw [show ':' :: w :: (ws2b ++ '"' :: (v ++ ['"'])) =
          (':' :: w :: ws2b) ++ ('"' :: (v ++ ['"'])) from by simp]
      rw [hasQCQ_nonquote_block (':' :: w :: ws2b) _ ?hblock2]
      · exact hfinal
      case hblock2 =>
        intro c hc
        simp only [List.mem_cons] at hc
        rcases hc with rfl | rfl | hc
        · decide
        · exact space_ne_quote c hwspace
        · exact space_ne_quote c (hw2 c (by rw [hws2b]; exact List.mem_cons_of_mem _ hc))



theorem scrubUsernamesAux_nil (f : Nat) (st : Scrubber) :
    scrubUsernamesAux f st [] = ([], st) := by
  cases f <;> rfl

theorem scrubUsernamesAux_skip (f : Nat) (st : Scrubber) (c : Char) (cs : Str)
    (h : usernameMatchAt (c :: cs) = none) :
    scrubUsernamesAux (f + 1) st (c :: cs) =
      ((c :: (scrubUsernamesAux f st cs).1), (scrubUsernamesAux f st cs).2) := by
  simp [scrubUsernamesAux, h]

theorem scrubUsernamesAux_match (f : Nat) (st : Scrubber) (c : Char) (cs m rest : Str)
    (h : usernameMatchAt (c :: cs) = some (m, rest)) :
    scrubUsernamesAux (f + 1) st (c :: cs) =
      ((usernameCallback st m).1 ++ (scrubUsernamesAux f (usernameCallback st m).2 rest).1,
       (scrubUsernamesAux f (usernameCallback st m).2 rest).2) := by
  simp [scrubUsernamesAux, h]

theorem usernameCallback_c9 (st : Scrubber) (ws1 ws2 v : Str)
    (hw1 : ∀ c ∈ ws1, isSpaceRe c = true) (hw2 : ∀ c ∈ ws2, isSpaceRe c = true)
    (hws : ws1 ≠ [] ∨ ws2 ≠ [])
    (hv : v ≠ []) (hvq : ∀ c ∈ v, (c == '"') = false) (hvc : ∀ c ∈ v, (c == ':') = false) :
    usernameCallback st (c9match ws1 ws2 v) = (c9match ws1 ws2 v, st) := by
  unfold usernameCallback
  rw [splitQCQ_of_noQCQ _ (hasQCQ_c9match ws1 ws2 v hw1 hw2 hws hv hvq hvc)]
  rw [if_pos (by simp)]

/-- C9: on a JSON object line whose user key is separated from its quoted
value by whitespace around the colon, the username regex matches, but the
callback's split on the literal quote-colon-quote does not give two parts,
so the matched text is emitted unchanged and the session state is left
untouched: no identity mapping and no cache entry is created for the
value. -/
theorem C9_whitespace_username_unscrubbed (st : Scrubber) (ws1 ws2 v : Str)
    (hw1 : ∀ c ∈ ws1, isSpaceRe c = true) (hw2 : ∀ c ∈ ws2, isSpaceRe c = true)
    (hws : ws1 ≠ [] ∨ ws2 ≠ [])
    (hv : v ≠ []) (hvq : ∀ c ∈ v, (c == '"') = false) (hvc : ∀ c ∈ v, (c == ':') = false) :
    usernameMatchAt (c9match ws1 ws2 v ++ ['\x7d']) =
      some (c9match ws1 ws2 v, ['\x7d']) ∧
    scrubUsernames st (c9line ws1 ws2 v) = (c9line ws1 ws2 v, st) := by
  have hin : c9match ws1 ws2 v ++ (['\x7d'] : Str) =
      '"' :: (strL ("user") ++ '"' ::
        (ws1 ++ ':' :: (ws2 ++ '"' :: (v ++ '"' :: ['\x7d'])))) := by
    simp [c9match, strL]
  have hout : ('"' :: strL ("user") ++ '"' :: (ws1 ++ ':' :: ws2 ++ '"' :: v ++ ['"']) : Str) =
      c9match ws1 ws2 v := by
    simp [c9match, strL]
  have hmatch : usernameMatchAt (c9match ws1 ws2 v ++ ['\x7d']) =
      some (c9match ws1 ws2 v, ['\x7d']) := by
    rw [hin, usernameMatchAt_shape ws1 ws2 v ['\x7d'] hw1 hw2 hv hvq, hout]
  refine ⟨hmatch, ?_⟩
  have hline : c9line ws1 ws2 v = '\x7b' :: (c9match ws1 ws2 v ++ ['\x7d']) := by
    simp [c9line]
  have hrbrace : ∀ f : Nat, 1 ≤ f →
      scrubUsernamesAux f st ['\x7d'] = (['\x7d'], st) := by
    intro f hf
    obtain ⟨f2, rfl⟩ : ∃ f2, f = f2 + 1 := ⟨f - 1, by omega⟩
    rw [scrubUsernamesAux_skip f2 st _ [] (usernameMatchAt_none_head '\x7d' [] (by decide))]
    rw [scrubUsernamesAux_nil]
  set R := strL ("user") ++ '"' ::
    (ws1 ++ ':' :: (ws2 ++ '"' :: (v ++ '"' :: ['\x7d']))) with hR
  have hmatch2 : usernameMatchAt ('"' :: R) = some (c9match ws1 ws2 v, ['\x7d']) := by
    rw [← hin] at *
    exact hmatch
  have hinner : scrubUsernamesAux (R.length + 1) st ('"' :: R) =
      (c9match ws1 ws2 v ++ ['\x7d'], st) := by
    rw [scrubUsernamesAux_match R.length st '"' R _ _ hmatch2]
    rw [usernameCallback_c9 st ws1 ws2 v hw1 hw2 hws hv hvq hvc]
    rw [hrbrace R.length (by simp [hR, strL])]
  show scrubUsernamesAux (c9line ws1 ws2 v).length st (c9line ws1 ws2 v) =
    (c9line ws1 ws2 v, st)
  rw [hline]
  have hlen : ('\x7b' :: (c9match ws1 ws2 v ++ ['\x7d'] : Str)).length =
      (c9match ws1 ws2 v ++ ['\x7d']).length + 1 := by simp
  rw [hlen]
  rw [scrubUsernamesAux_skip _ st '\x7b' _ (usernameMatchAt_none_head '\x7b' _ (by decide))]
  have hlenR : (c9match ws1 ws2 v ++ (['\x7d'] : Str)).length = R.length + 1 := by
    rw [hin]
    simp
  rw [show scrubUsernamesAux (c9match ws1 ws2 v ++ ['\x7d']).length st
        (c9match ws1 ws2 v ++ ['\x7d']) =
      scrubUsernamesAux (R.length + 1) st ('"' :: R) from by rw [hlenR, hin]]
  rw [hinner]



/-- C9 witness: the statement at the line with one space after the colon
and the value bob, from the empty state. -/
theorem C9_witness :
    usernameMatchAt (c9match [] [' '] (strL ("bob")) ++ ['\x7d']) =
      some (c9match [] [' '] (strL ("bob")), ['\x7d']) ∧
    scrubUsernames (initScrubber 1 true) (c9line [] [' '] (strL ("bob"))) =
      (c9line [] [' '] (strL ("bob")), initScrubber 1 true) :=
  C9_whitespace_username_unscrubbed (initScrubber 1 true) [] [' '] (strL ("bob"))
    (by decide) (by decide) (by decide) (by decide) (by decide) (by decide)

end MMScrub
